import Mathlib

/-!
# go-thingy: a verification development

A shallow embedding of `thingy/thingy.go` (the BLE device session and the
notification decoders) and of `main.go` (sensor set-up, the dispatch loop and
the Home Assistant topic/payload builders), followed by theorems about them.

Modelling conventions

* A Go byte slice is a window on a backing array: `Slice.elems` are the bytes
  inside the slice (indices `0 .. len-1`) and `Slice.spare` are the bytes of the
  backing array that lie after the slice but inside its capacity.  Indexing is
  checked against the length, re-slicing `data[lo:hi]` against the capacity, as
  the Go language specification prescribes.
* A run-time panic is an `Except.error` carrying the `Panic` that Go raises.
* `float32` values are the rationals they denote; every float32 operation is
  the exact operation followed by IEEE-754 round-to-nearest-even to a 24 bit
  significand (`f32Round`).  All magnitudes that occur are below `2^34`, far
  from the overflow threshold, so infinities and NaNs never arise.
* A channel is its FIFO content together with its closed flag.
-/

namespace GoThingy

/-! ## Go run-time model -/

/-- Octet: the Go type `byte`. -/
abbrev Byte := Fin 256

/-- Run-time panics that the embedded code can raise. -/
inductive Panic where
  /-- The panic `index out of range [i] with length len`. -/
  | indexOutOfRange (i len : Nat)
  /-- The panic `slice bounds out of range [:hi] with capacity cap`. -/
  | sliceBoundsOutOfRange (hi cap : Nat)
  /-- The panic `slice bounds out of range [lo:hi]`. -/
  | sliceLowOutOfRange (lo hi : Nat)
  /-- The panic `send on closed channel`. -/
  | sendOnClosedChannel
  /-- The panic `close of closed channel`. -/
  | closeOfClosedChannel
  /-- The panic raised by `ble.MustParse` on a string that is not a UUID. -/
  | mustParse (s : String)
  deriving DecidableEq, Repr

/-- Go byte slice: the bytes inside the slice, and the bytes of the backing
array after the slice that are still inside its capacity. -/
structure Slice where
  elems : List Byte
  spare : List Byte
  deriving DecidableEq, Repr

/-- The built-in `len(data)`. -/
def Slice.len (d : Slice) : Nat := d.elems.length

/-- The built-in `cap(data)`. -/
def Slice.cap (d : Slice) : Nat := d.elems.length + d.spare.length

/-- The index expression `data[i]`: checked against the length. -/
def Slice.index (d : Slice) (i : Nat) : Except Panic Byte :=
  match d.elems[i]? with
  | some b => .ok b
  | none => .error (.indexOutOfRange i d.len)

/-- The slice expression `data[lo:hi]`: for a slice operand the upper bound is
checked against the capacity, not the length. -/
def Slice.reslice (d : Slice) (lo hi : Nat) : Except Panic Slice :=
  if d.cap < hi then .error (.sliceBoundsOutOfRange hi d.cap)
  else if hi < lo then .error (.sliceLowOutOfRange lo hi)
  else .ok
    { elems := ((d.elems ++ d.spare).drop lo).take (hi - lo)
      spare := (d.elems ++ d.spare).drop hi }

/-- The conversion `int8(b)` of a byte: two's complement reinterpretation. -/
def int8 (b : Byte) : Int := ((b.val : Int) + 128) % 256 - 128

/-- The conversion `uint8(b)` of a byte. -/
def uint8 (b : Byte) : Nat := b.val % 256

/-- Standard library `binary.LittleEndian.Uint16`:
`_ = b[1]; return uint16(b[0]) | uint16(b[1])<<8`. -/
def leUint16 (b : Slice) : Except Panic Nat := do
  let _ ← b.index 1
  let b0 ← b.index 0
  let b1 ← b.index 1
  pure ((b0.val % 65536) ||| ((b1.val % 65536) <<< 8) % 65536)

/-- Standard library `binary.LittleEndian.Uint32`:
`_ = b[3]; return uint32(b[0]) | uint32(b[1])<<8 | uint32(b[2])<<16 | uint32(b[3])<<24`. -/
def leUint32 (b : Slice) : Except Panic Nat := do
  let _ ← b.index 3
  let b0 ← b.index 0
  let b1 ← b.index 1
  let b2 ← b.index 2
  let b3 ← b.index 3
  pure ((b0.val % 4294967296) ||| ((b1.val % 4294967296) <<< 8) % 4294967296
    ||| ((b2.val % 4294967296) <<< 16) % 4294967296
    ||| ((b3.val % 4294967296) <<< 24) % 4294967296)

/-! ## float32 arithmetic -/

/-- Finite `float32` value, represented by the rational it denotes. -/
abbrev F32 := ℚ

/-- Round a rational to the nearest integer, ties to the even one. -/
def roundHalfEven (q : ℚ) : ℤ :=
  let f := ⌊q⌋
  let r := q - f
  if r < 1 / 2 then f
  else if 1 / 2 < r then f + 1
  else if f % 2 = 0 then f else f + 1

/-- The binary exponent used for a float32 of magnitude `|q|`: the floor of
its binary logarithm, but never below the smallest normal exponent. -/
def f32Exponent (q : ℚ) : ℤ := max (Int.log 2 |q|) (-126)

/-- The spacing of float32 values around `q` (one unit in the last place of a
24 bit significand). -/
def f32Ulp (q : ℚ) : ℚ := (2 : ℚ) ^ (f32Exponent q - 23)

/-- IEEE-754 binary32 rounding, round-to-nearest ties-to-even. -/
def f32Round (q : ℚ) : F32 :=
  if q = 0 then 0 else (roundHalfEven (q / f32Ulp q) : ℚ) * f32Ulp q

/-- The conversion `float32(n)` of a signed integer. -/
def f32OfInt (n : Int) : F32 := f32Round n

/-- The conversion `float32(n)` of an unsigned integer. -/
def f32OfNat (n : Nat) : F32 := f32Round n

/-- An untyped numeric constant used in a float32 expression. -/
def f32Const (q : ℚ) : F32 := f32Round q

/-- The float32 sum `x + y`. -/
def f32Add (x y : F32) : F32 := f32Round (x + y)

/-- The float32 quotient `x / y`. -/
def f32Div (x y : F32) : F32 := f32Round (x / y)

/-! ## Channels -/

/-- The buffer size of every notification channel: `make(chan T, 10)`. -/
def chanCap : Nat := 10

/-- Go channel.  `items` is the FIFO content in arrival order: the buffered
elements, followed (beyond `chanCap`) by the values of the senders parked on the
full buffer, which enter the buffer in that order as receives make room. -/
structure Chan (α : Type) where
  items : List α
  closed : Bool
  deriving DecidableEq, Repr

/-- The channel made by `make(chan T, 10)`. -/
def Chan.make (α : Type) : Chan α := { items := [], closed := false }

/-- The send statement `ch <- v`.  Sending on a closed channel panics; on an
open channel the value joins the content (the sender stays parked while the
value is beyond the buffer, see `Chan.senderParked`). -/
def Chan.send {α : Type} (c : Chan α) (v : α) : Except Panic (Chan α) :=
  if c.closed then .error .sendOnClosedChannel
  else .ok { c with items := c.items ++ [v] }

/-- Whether the last sender is parked on a full buffer. -/
def Chan.senderParked {α : Type} (c : Chan α) : Bool := decide (chanCap < c.items.length)

/-- The built-in `close(ch)`. -/
def Chan.close {α : Type} (c : Chan α) : Except Panic (Chan α) :=
  if c.closed then .error .closeOfClosedChannel
  else .ok { c with closed := true }

/-- Outcome of a receive `v, ok := <-ch` attempted as a `select` case. -/
inductive Recv (α : Type) where
  /-- A value was received (`ok = true`); the rest of the channel follows. -/
  | value (v : α) (rest : Chan α)
  /-- The channel is closed and drained (`ok = false`). -/
  | closedEmpty
  /-- The channel is open and empty: the case is not ready. -/
  | notReady
  deriving DecidableEq, Repr

/-- The receive operation of a `select` case. -/
def Chan.recv {α : Type} (c : Chan α) : Recv α :=
  match c.items with
  | v :: rest => .value v { c with items := rest }
  | [] => if c.closed then .closedEmpty else .notReady

/-! ## Strings -/

/-- Scan of `strings.ReplaceAll` for a non-empty `old`: `skip` counts the
characters of a match just replaced that are still to be stepped over. -/
def replaceAllAux (old new : List Char) : Nat → List Char → List Char
  | _, [] => []
  | skip + 1, _ :: cs => replaceAllAux old new skip cs
  | 0, c :: cs =>
    if old.isPrefixOf (c :: cs) then new ++ replaceAllAux old new (old.length - 1) cs
    else c :: replaceAllAux old new 0 cs

/-- Standard library `strings.ReplaceAll(s, old, new)`: every non-overlapping
occurrence of `old`, found left to right, is replaced by `new`; an empty `old`
matches before every character and at the end. -/
def stringsReplaceAll (s old new : String) : String :=
  if old.data = [] then ⟨new.data ++ s.data.flatMap (fun c => c :: new.data)⟩
  else ⟨replaceAllAux old.data new.data 0 s.data⟩

/-! ## The device session (`thingy/thingy.go`) -/

/-- The type `ble.UUID`, a byte string; `UUID.Equal` is `bytes.Equal`. -/
abbrev UUID := List Byte

/-- The type `ble.Characteristic`: its UUID and its attribute handle. -/
structure Characteristic where
  UUID : UUID
  handle : Nat
  deriving DecidableEq, Repr

/-- The type `ble.Service`. -/
structure Service where
  UUID : UUID
  Characteristics : List Characteristic
  deriving DecidableEq, Repr

/-- The type `ble.Profile`. -/
structure Profile where
  Services : List Service
  deriving DecidableEq, Repr

/-- The sensor families, one per notification callback. -/
inductive Family where
  | temperature | pressure | humidity | gas | color | button
  deriving DecidableEq, Repr

/-- The element type of `GasNotif`: `struct{ ECO2, TVOC uint16 }`. -/
structure GasReading where
  ECO2 : Nat
  TVOC : Nat
  deriving DecidableEq, Repr

/-- The element type of `ColorNotif`: `struct{ Red, Green, Blue, Clear uint16 }`. -/
structure ColorReading where
  Red : Nat
  Green : Nat
  Blue : Nat
  Clear : Nat
  deriving DecidableEq, Repr

/-- The BLE library as seen by the session: `ble.Parse` on UUID strings and the
error, if any, that `cln.Subscribe` returns for a characteristic. -/
structure Ble where
  parse : String → Option UUID
  subscribeErr : Characteristic → Option String

/-- The type `Thingy`.  `subscriptions` is the state of `cln` that the session
changes: the notification callback registered for each subscribed
characteristic. -/
structure Thingy where
  subscriptions : List (Characteristic × Family)
  profile : Profile
  mac : String
  TempNotif : Chan F32
  PressNotif : Chan F32
  HumidNotif : Chan Nat
  GasNotif : Chan GasReading
  ColorNotif : Chan ColorReading
  BtnNotif : Chan Bool

def TCS_UUID : String := "ef6801009b3549339b1052ffa9740042"
def TES_UUID : String := "ef6802009b3549339b1052ffa9740042"
def TES_TEMP_UUID : String := "ef6802019b3549339b1052ffa9740042"
def TES_PRESS_UUID : String := "ef6802029b3549339b1052ffa9740042"
def TES_HUMID_UUID : String := "ef6802039b3549339b1052ffa9740042"
def TES_GAS_UUID : String := "ef6802049b3549339b1052ffa9740042"
def TES_COLOR_UUID : String := "ef6802059b3549339b1052ffa9740042"
def UIS_UUID : String := "ef6803009b3549339b1052ffa9740042"
def UIS_BTN_UUID : String := "ef6803029b3549339b1052ffa9740042"

/-- The part of `New` after a successful connect and profile discovery:
`addr` is what `cln.Addr().String()` returned and `p` the discovered profile. -/
def New (addr : String) (p : Profile) : Thingy :=
  let mac := addr
  let mac := stringsReplaceAll mac ":" ""
  { subscriptions := []
    profile := p
    mac := mac
    TempNotif := Chan.make F32
    PressNotif := Chan.make F32
    HumidNotif := Chan.make Nat
    GasNotif := Chan.make GasReading
    ColorNotif := Chan.make ColorReading
    BtnNotif := Chan.make Bool }

/-- The statements of the goroutine started by `New`, run once
`cln.Disconnected()` has fired: statement `pc` closes the `pc`-th channel. -/
def disconnectStep (pc : Nat) (t : Thingy) : Except Panic Thingy :=
  match pc with
  | 0 => do let c ← t.TempNotif.close; pure { t with TempNotif := c }
  | 1 => do let c ← t.PressNotif.close; pure { t with PressNotif := c }
  | 2 => do let c ← t.HumidNotif.close; pure { t with HumidNotif := c }
  | 3 => do let c ← t.GasNotif.close; pure { t with GasNotif := c }
  | 4 => do let c ← t.ColorNotif.close; pure { t with ColorNotif := c }
  | 5 => do let c ← t.BtnNotif.close; pure { t with BtnNotif := c }
  | _ => pure t

/-- The method `MAC`. -/
def Thingy.MAC (t : Thingy) : String := t.mac

/-- The callback `onTempNotif`. -/
def onTempNotif (t : Thingy) (data : Slice) : Except Panic Thingy := do
  let integer := int8 (← data.index 0)
  let decimal := uint8 (← data.index 1)
  let temperature := f32Add (f32OfInt integer) (f32Div (f32OfNat decimal) (f32Const 100))
  let c ← t.TempNotif.send temperature
  pure { t with TempNotif := c }

/-- The callback `onPressNotif`. -/
def onPressNotif (t : Thingy) (data : Slice) : Except Panic Thingy := do
  let integer ← leUint32 (← data.reslice 0 4)
  let decimal := uint8 (← data.index 4)
  let pressure := f32Add (f32OfNat integer) (f32Div (f32OfNat decimal) (f32Const 100))
  let c ← t.PressNotif.send pressure
  pure { t with PressNotif := c }

/-- The callback `onHumidNotif`. -/
def onHumidNotif (t : Thingy) (data : Slice) : Except Panic Thingy := do
  let humid := uint8 (← data.index 0)
  let c ← t.HumidNotif.send humid
  pure { t with HumidNotif := c }

/-- The callback `onGasNotif`. -/
def onGasNotif (t : Thingy) (data : Slice) : Except Panic Thingy := do
  let eco2 ← leUint16 (← data.reslice 0 2)
  let tvoc ← leUint16 (← data.reslice 2 4)
  let c ← t.GasNotif.send { ECO2 := eco2, TVOC := tvoc }
  pure { t with GasNotif := c }

/-- The callback `onColorNotif`. -/
def onColorNotif (t : Thingy) (data : Slice) : Except Panic Thingy := do
  let red ← leUint16 (← data.reslice 0 2)
  let green ← leUint16 (← data.reslice 2 4)
  let blue ← leUint16 (← data.reslice 4 6)
  let clear ← leUint16 (← data.reslice 6 8)
  let c ← t.ColorNotif.send { Red := red, Green := green, Blue := blue, Clear := clear }
  pure { t with ColorNotif := c }

/-- The callback `onBtnNotif`. -/
def onBtnNotif (t : Thingy) (data : Slice) : Except Panic Thingy := do
  let b ← data.index 0
  let c ← t.BtnNotif.send (decide (b = 1))
  pure { t with BtnNotif := c }

/-- The library function `ble.MustParse`: `ble.Parse`, panicking on error. -/
def MustParse (ble : Ble) (s : String) : Except Panic UUID :=
  match ble.parse s with
  | some u => .ok u
  | none => .error (.mustParse s)

/-- The inner loop of `getCharacteristic` over one service's characteristics. -/
def findCharacteristic (cUUID : UUID) : List Characteristic → Option Characteristic
  | [] => none
  | c :: cs => if c.UUID = cUUID then some c else findCharacteristic cUUID cs

/-- The outer loop of `getCharacteristic` over the profile's services. -/
def findInServices (sUUID cUUID : UUID) : List Service → Option Characteristic
  | [] => none
  | s :: ss =>
    if s.UUID = sUUID then
      match findCharacteristic cUUID s.Characteristics with
      | some c => some c
      | none => findInServices sUUID cUUID ss
    else findInServices sUUID cUUID ss

/-- The error value built by `getCharacteristic`. -/
def notFoundError (serviceUUID charUUID : String) : String :=
  "characteristic " ++ charUUID ++ " not found in service " ++ serviceUUID

/-- The method `getCharacteristic`: the inner `Except` is the Go result pair
`(*ble.Characteristic, error)`, the outer one a panic of `ble.MustParse`. -/
def getCharacteristic (ble : Ble) (t : Thingy) (serviceUUID charUUID : String) :
    Except Panic (Except String Characteristic) := do
  let sUUID ← MustParse ble serviceUUID
  let cUUID ← MustParse ble charUUID
  match findInServices sUUID cUUID t.profile.Services with
  | some c => pure (.ok c)
  | none => pure (.error (notFoundError serviceUUID charUUID))

/-- The library call `t.cln.Subscribe(c, false, handler)`: the error it returns,
if any, and the session with the callback registered otherwise. -/
def Subscribe (ble : Ble) (t : Thingy) (c : Characteristic) (handler : Family) :
    Option String × Thingy :=
  match ble.subscribeErr c with
  | some e => (some e, t)
  | none => (none, { t with subscriptions := t.subscriptions ++ [(c, handler)] })

/-- The common body of the `...Enable` methods: the returned `error` (`none` is
`nil`) and the session afterwards. -/
def enable (ble : Ble) (t : Thingy) (serviceUUID charUUID : String) (handler : Family) :
    Except Panic (Option String × Thingy) := do
  match ← getCharacteristic ble t serviceUUID charUUID with
  | .error err => pure (some err, t)
  | .ok c => pure (Subscribe ble t c handler)

/-- The method `TemperatureEnable`. -/
def TemperatureEnable (ble : Ble) (t : Thingy) : Except Panic (Option String × Thingy) :=
  enable ble t TES_UUID TES_TEMP_UUID .temperature

/-- The method `PressureEnable`. -/
def PressureEnable (ble : Ble) (t : Thingy) : Except Panic (Option String × Thingy) :=
  enable ble t TES_UUID TES_PRESS_UUID .pressure

/-- The method `HumidityEnable`. -/
def HumidityEnable (ble : Ble) (t : Thingy) : Except Panic (Option String × Thingy) :=
  enable ble t TES_UUID TES_HUMID_UUID .humidity

/-- The method `GasEnable`. -/
def GasEnable (ble : Ble) (t : Thingy) : Except Panic (Option String × Thingy) :=
  enable ble t TES_UUID TES_GAS_UUID .gas

/-! ## The bridge (`main.go`) -/

/-- Go value stored in a `map[string]interface{}` payload.  A map is given by
its entries in the order of the map literal; the keys of every literal in
`main.go` are distinct, and `json.Marshal` writes them sorted. -/
inductive GoValue where
  | str (s : String)
  | strs (l : List String)
  | float32 (x : F32)
  | uint8 (n : Nat)
  | uint16 (n : Nat)
  | map (kv : List (String × GoValue))

/-- The value bound to a key of a map payload. -/
def GoValue.lookup (v : GoValue) (key : String) : Option GoValue :=
  match v with
  | .map kv => (kv.find? (fun e => e.1 == key)).map (fun e => e.2)
  | _ => none

/-- The keys of a map payload. -/
def GoValue.keys (v : GoValue) : List String :=
  match v with
  | .map kv => kv.map (fun e => e.1)
  | _ => []

/-- One call `mqttClient.Publish(topic, qos, retained, payloadBytes)`; `payload`
is the value whose `json.Marshal` encoding is `payloadBytes`. -/
structure Message where
  topic : String
  qos : Nat
  retained : Bool
  payload : GoValue

/-- The function `publishDiscovery`; `mqttClient` is the sequence of messages
handed to the MQTT client so far. -/
def publishDiscovery (mqttClient : List Message)
    (mac sensorType deviceClass deviceName unit : String) : List Message :=
  let topic := "homeassistant/sensor/" ++ deviceName ++ "/" ++ sensorType ++ "/config"
  let payload := GoValue.map [
    ("name", .str (deviceName ++ " " ++ sensorType)),
    ("stat_t", .str ("homeassistant/sensor/" ++ deviceName ++ "/state")),
    ("val_tpl", .str ("\x7b\x7b value_json." ++ sensorType ++ " \x7d\x7d")),
    ("unit_of_meas", .str unit),
    ("dev_cla", .str deviceClass),
    ("uniq_id", .str (mac ++ "_" ++ sensorType)),
    ("device", .map [
      ("identifiers", .strs [mac]),
      ("name", .str deviceName),
      ("manufacturer", .str "Nordic Semiconductor"),
      ("model", .str "Thingy:52")])]
  mqttClient ++ [{ topic := topic, qos := 0, retained := false, payload := payload }]

/-- The function `publishState`. -/
def publishState (mqttClient : List Message) (mac sensorType deviceName : String)
    (value : GoValue) : List Message :=
  let _ := mac
  let topic := "homeassistant/sensor/" ++ deviceName ++ "/state"
  let payload := GoValue.map [(sensorType, value)]
  mqttClient ++ [{ topic := topic, qos := 0, retained := false, payload := payload }]

/-- How the set-up sequence of `main` ended early. -/
inductive Exit where
  /-- The call `log.Fatalf(msg)`: the message is logged and the process exits
  with status 1. -/
  | fatal (msg : String)
  /-- An unrecovered run-time panic. -/
  | panic (p : Panic)
  deriving DecidableEq, Repr

/-- The program state after the set-up sequence of `main`: the session, the
messages published, and how the process exited if it did. -/
structure Setup where
  t : Thingy
  mqttClient : List Message
  exit : Option Exit

/-- The set-up sequence of `main` (lines 37 to 58): the four `if err := ...Enable()`
statements, in order. -/
def main_setup (ble : Ble) (deviceName : String) (t : Thingy) (mqttClient : List Message) :
    Setup :=
  match TemperatureEnable ble t with
  | .error p => ⟨t, mqttClient, some (.panic p)⟩
  | .ok (some err, t) =>
    ⟨t, mqttClient, some (.fatal ("failed to enable temperature notification: " ++ err))⟩
  | .ok (none, t) =>
    let mqttClient :=
      publishDiscovery mqttClient t.MAC "temperature" "temperature" deviceName "°C"
    match PressureEnable ble t with
    | .error p => ⟨t, mqttClient, some (.panic p)⟩
    | .ok (some err, t) =>
      ⟨t, mqttClient, some (.fatal ("failed to enable pressure notification: " ++ err))⟩
    | .ok (none, t) =>
      let mqttClient :=
        publishDiscovery mqttClient t.MAC "pressure" "pressure" deviceName "hPa"
      match HumidityEnable ble t with
      | .error p => ⟨t, mqttClient, some (.panic p)⟩
      | .ok (some err, t) =>
        ⟨t, mqttClient, some (.fatal ("failed to enable humidity notification: " ++ err))⟩
      | .ok (none, t) =>
        let mqttClient :=
          publishDiscovery mqttClient t.MAC "humidity" "humidity" deviceName "%"
        match GasEnable ble t with
        | .error p => ⟨t, mqttClient, some (.panic p)⟩
        | .ok (some err, t) =>
          ⟨t, mqttClient, some (.fatal ("failed to enable gas notification: " ++ err))⟩
        | .ok (none, t) =>
          let mqttClient :=
            publishDiscovery mqttClient t.MAC "eco2" "carbon_dioxide" deviceName "ppm"
          let mqttClient :=
            publishDiscovery mqttClient t.MAC "number" "volatile_organic_compounds"
              deviceName "ppb"
          ⟨t, mqttClient, none⟩

/-- The four cases of the `select` statement of the dispatch goroutine. -/
inductive Case where
  | temp | press | humid | gas
  deriving DecidableEq, Repr

/-- The state of the dispatch goroutine: the session whose channels it reads,
the messages published, and whether the goroutine is still in its loop. -/
structure Dispatch where
  t : Thingy
  mqttClient : List Message
  running : Bool

/-- One iteration of the `for { select { ... } }` loop of `main` in which `select`
chose case `c`; `none` when that case cannot proceed.  (The `fmt.Printf` of the
gas case writes to standard output only.) -/
def selectCase (deviceName : String) (c : Case) (s : Dispatch) : Option Dispatch :=
  match c with
  | .temp =>
    match s.t.TempNotif.recv with
    | .notReady => none
    | .closedEmpty => some { s with running := false }
    | .value temp rest =>
      some { s with
        t := { s.t with TempNotif := rest }
        mqttClient := publishState s.mqttClient s.t.MAC "temperature" deviceName
          (.float32 temp) }
  | .press =>
    match s.t.PressNotif.recv with
    | .notReady => none
    | .closedEmpty => some { s with running := false }
    | .value press rest =>
      some { s with
        t := { s.t with PressNotif := rest }
        mqttClient := publishState s.mqttClient s.t.MAC "pressure" deviceName
          (.float32 press) }
  | .humid =>
    match s.t.HumidNotif.recv with
    | .notReady => none
    | .closedEmpty => some { s with running := false }
    | .value humid rest =>
      some { s with
        t := { s.t with HumidNotif := rest }
        mqttClient := publishState s.mqttClient s.t.MAC "humidity" deviceName
          (.uint8 humid) }
  | .gas =>
    match s.t.GasNotif.recv with
    | .notReady => none
    | .closedEmpty => some { s with running := false }
    | .value gas rest =>
      some { s with
        t := { s.t with GasNotif := rest }
        mqttClient := publishState
          (publishState s.mqttClient s.t.MAC "eco2" deviceName (.uint16 gas.ECO2))
          s.t.MAC "tvoc" deviceName (.uint16 gas.TVOC) }

/-- The step relation of the dispatch goroutine: while it is in its loop,
`select` picks any case that can proceed. -/
def DispatchStep (deviceName : String) (s s2 : Dispatch) : Prop :=
  s.running = true ∧ ∃ c, selectCase deviceName c s = some s2

/-! ## Specification-side definitions -/

/-- Follows the specification's words: the characteristics of the services
whose UUID is `sUUID`, in profile order, and among them the first one whose
UUID is `cUUID`. -/
def firstMatchingCharacteristic (p : Profile) (sUUID cUUID : UUID) : Option Characteristic :=
  ((p.Services.filter (fun s => decide (s.UUID = sUUID))).flatMap
    (fun s => s.Characteristics)).find? (fun c => decide (c.UUID = cUUID))

/-- A profile with one environment service that lacks the temperature
characteristic: pressure, humidity and gas are present. -/
def sampleProfile : Profile :=
  { Services := [
      { UUID := [1], Characteristics := [⟨[9], 20⟩] },
      { UUID := [2], Characteristics := [⟨[12], 31⟩, ⟨[13], 32⟩, ⟨[14], 33⟩, ⟨[12], 34⟩] }] }

/-- A BLE library whose subscriptions always succeed and which parses the
UUID strings of the environment service to short byte strings. -/
def sampleBle : Ble :=
  { parse := fun s =>
      if s = TES_UUID then some [2]
      else if s = TES_TEMP_UUID then some [11]
      else if s = TES_PRESS_UUID then some [12]
      else if s = TES_HUMID_UUID then some [13]
      else if s = TES_GAS_UUID then some [14]
      else none
    subscribeErr := fun _ => none }

/-- Follows the specification's words: a byte read as a signed 8 bit (two's
complement) integer. -/
def signed8 (b : Byte) : ℤ := if b.val < 128 then (b.val : ℤ) else (b.val : ℤ) - 256

/-- Follows the specification's words: the unsigned 32 bit little-endian value
of four bytes. -/
def uint32LE (b0 b1 b2 b3 : Byte) : ℕ :=
  b0.val + 256 * b1.val + 65536 * b2.val + 16777216 * b3.val

/-- Follows the specification's words: integerPart + decimalPart/100, evaluated
in float32 arithmetic on the float32 conversions of the two parts. -/
def readingValue (integerPart decimalPart : ℚ) : F32 :=
  f32Add integerPart (f32Div decimalPart 100)

/-- Whether an `...Enable` call returned a nil error. -/
def returnsNil (r : Except Panic (Option String × Thingy)) : Bool :=
  match r with
  | .ok (none, _) => true
  | _ => false

/-- A freshly connected session on the sample profile. -/
def sampleThingy : Thingy := New "AA:BB:CC:DD:EE:FF" sampleProfile

/-- A profile whose environment service has all four characteristics that
`main` enables. -/
def fullProfile : Profile :=
  { Services := [
      { UUID := [2],
        Characteristics := [⟨[11], 30⟩, ⟨[12], 31⟩, ⟨[13], 32⟩, ⟨[14], 33⟩] }] }

/-- Whether the queue read by a `select` case is closed and drained, so that
the receive of that case reports closure. -/
def queueClosedAndDrained (c : Case) (t : Thingy) : Bool :=
  match c with
  | .temp => t.TempNotif.closed && t.TempNotif.items.isEmpty
  | .press => t.PressNotif.closed && t.PressNotif.items.isEmpty
  | .humid => t.HumidNotif.closed && t.HumidNotif.items.isEmpty
  | .gas => t.GasNotif.closed && t.GasNotif.items.isEmpty

/-- Whether the queue read by a `select` case is still open. -/
def queueOpen (c : Case) (t : Thingy) : Bool :=
  match c with
  | .temp => !t.TempNotif.closed
  | .press => !t.PressNotif.closed
  | .humid => !t.HumidNotif.closed
  | .gas => !t.GasNotif.closed

/-- The number of readings waiting in the queue read by a `select` case. -/
def queueLength (c : Case) (t : Thingy) : Nat :=
  match c with
  | .temp => t.TempNotif.items.length
  | .press => t.PressNotif.items.length
  | .humid => t.HumidNotif.items.length
  | .gas => t.GasNotif.items.length

/-- A run in which a gas notification arrives and the disconnect goroutine then
executes its first statement, `close(t.TempNotif)`. -/
def closureScenario : Except Panic Thingy := do
  let t ← onGasNotif sampleThingy ⟨[0x01, 0x02, 0x03, 0x04], []⟩
  disconnectStep 0 t

/-- The value template of a discovery message. -/
def valueTemplate (msg : Message) : Option String :=
  match msg.payload.lookup "val_tpl" with
  | some (.str s) => some s
  | _ => none

/-- The keys of the state payloads that a `select` case publishes, read off the
`publishState` calls of that case. -/
def stateKeys (c : Case) : List String :=
  match c with
  | .temp => ["temperature"]
  | .press => ["pressure"]
  | .humid => ["humidity"]
  | .gas => ["eco2", "tvoc"]

/-! ## Lemmas -/

theorem replaceAllAux_colon (s : List Char) :
    replaceAllAux [':'] [] 0 s = s.filter (fun c => c != ':') := by
  induction s with
  | nil => rfl
  | cons c cs ih =>
    by_cases h : c = ':'
    · subst h
      simp [replaceAllAux, List.isPrefixOf, ih]
    · have h2 : (c == ':') = false := by simpa using h
      have h3 : ¬ ':' = c := fun e => h e.symm
      have h4 : (c != ':') = true := by simpa using h
      have h5 : List.filter (fun c => c != ':') (c :: cs)
          = c :: List.filter (fun c => c != ':') cs := List.filter_cons_of_pos h4
      rw [h5, ← ih]
      simp [replaceAllAux, List.isPrefixOf, h2, h3]

theorem New_mac_eq_filter (addr : String) (p : Profile) :
    (New addr p).MAC = ⟨addr.data.filter (fun c => c != ':')⟩ := by
  have hne : ¬ (":" : String).data = [] := by decide
  simp only [Thingy.MAC, New, stringsReplaceAll, hne, if_false]
  exact congrArg String.mk (replaceAllAux_colon addr.data)

theorem findCharacteristic_eq_find (cUUID : UUID) (cs : List Characteristic) :
    findCharacteristic cUUID cs = cs.find? (fun c => decide (c.UUID = cUUID)) := by
  induction cs with
  | nil => rfl
  | cons c cs ih =>
    by_cases h : c.UUID = cUUID
    · simp [findCharacteristic, h]
    · simp [findCharacteristic, h, ih]

theorem findInServices_eq_first (sUUID cUUID : UUID) (ss : List Service) :
    findInServices sUUID cUUID ss = firstMatchingCharacteristic ⟨ss⟩ sUUID cUUID := by
  unfold firstMatchingCharacteristic
  induction ss with
  | nil => rfl
  | cons s ss ih =>
    by_cases h : s.UUID = sUUID
    · simp only [findInServices, h, if_true, decide_True, List.filter_cons_of_pos,
        List.flatMap_cons, List.find?_append, findCharacteristic_eq_find]
      cases hf : List.find? (fun c => decide (c.UUID = cUUID)) s.Characteristics with
      | some c => simp
      | none => simpa using ih
    · simpa [findInServices, h] using ih

theorem firstMatching_eq_none_iff (p : Profile) (sUUID cUUID : UUID) :
    firstMatchingCharacteristic p sUUID cUUID = none ↔
      ¬ ∃ s ∈ p.Services, s.UUID = sUUID ∧ ∃ c ∈ s.Characteristics, c.UUID = cUUID := by
  unfold firstMatchingCharacteristic
  simp only [List.find?_eq_none, List.mem_flatMap, List.mem_filter, decide_eq_true_eq]
  constructor
  · rintro h ⟨s, hs, hsu, c, hc, hcu⟩
    exact h c ⟨s, ⟨hs, hsu⟩, hc⟩ hcu
  · rintro h c ⟨s, ⟨hs, hsu⟩, hc⟩ hcu
    exact h ⟨s, hs, hsu, c, hc, hcu⟩

theorem lor_shiftLeft_of_lt {x : Nat} (i : Nat) (h : x < 2 ^ i) (a : Nat) :
    x ||| (a <<< i) = x + 2 ^ i * a := by
  rw [Nat.shiftLeft_eq, Nat.lor_comm, Nat.mul_comm a, ← Nat.mul_add_lt_is_or h, Nat.add_comm]

theorem uint16_le_value (b0 b1 : Byte) :
    ((b0.val % 65536) ||| ((b1.val % 65536) <<< 8) % 65536) = b0.val + 256 * b1.val := by
  have h0 := b0.isLt
  have h1 := b1.isLt
  rw [Nat.mod_eq_of_lt (by omega : b0.val < 65536), Nat.mod_eq_of_lt (by omega : b1.val < 65536)]
  have hs : b1.val <<< 8 = b1.val * 256 := by rw [Nat.shiftLeft_eq]
  rw [Nat.mod_eq_of_lt (by omega : b1.val <<< 8 < 65536)]
  exact lor_shiftLeft_of_lt 8 (by omega) b1.val

theorem list_of_four_le {α : Type} (l : List α) (h : 4 ≤ l.length) :
    ∃ b0 b1 b2 b3 rest, l = b0 :: b1 :: b2 :: b3 :: rest := by
  match l, h with
  | b0 :: b1 :: b2 :: b3 :: rest, _ => exact ⟨b0, b1, b2, b3, rest, rfl⟩

theorem leUint16_pair (b0 b1 : Byte) (spare : List Byte) :
    leUint16 ⟨[b0, b1], spare⟩ = .ok (b0.val + 256 * b1.val) := by
  have h := uint16_le_value b0 b1
  simp only [leUint16, Slice.index, bind, Except.bind, pure, Except.pure, List.getElem?_cons_zero,
    List.getElem?_cons_succ, h]

theorem reslice_pair (d : Slice) (lo hi : Nat) (hhi : hi = lo + 2) (h : hi ≤ d.cap) :
    ∃ x y sp, d.reslice lo hi = .ok ⟨[x, y], sp⟩ := by
  subst hhi
  have h1 : ¬ d.cap < lo + 2 := by omega
  have h2 : ¬ lo + 2 < lo := by omega
  have hlen : 2 ≤ ((d.elems ++ d.spare).drop lo).length := by
    simp only [Slice.cap] at h
    simp only [List.length_drop, List.length_append]; omega
  match hm : (d.elems ++ d.spare).drop lo, hlen with
  | x :: y :: rest, _ =>
    refine ⟨x, y, (d.elems ++ d.spare).drop (lo + 2), ?_⟩
    simp [Slice.reslice, h1, hm]

theorem reslice_beyond_cap (d : Slice) (lo hi : Nat) (h : d.cap < hi) :
    d.reslice lo hi = .error (.sliceBoundsOutOfRange hi d.cap) := by
  simp [Slice.reslice, h]

theorem enable_cases (ble : Ble) (t : Thingy) (s c : String) (f : Family) :
    (∃ p, enable ble t s c f = .error p) ∨
    (∃ e, enable ble t s c f = .ok (some e, t)) ∨
    (∃ ch, enable ble t s c f
      = .ok (none, { t with subscriptions := t.subscriptions ++ [(ch, f)] })) := by
  unfold enable getCharacteristic MustParse
  cases hs : ble.parse s with
  | none => exact Or.inl ⟨_, rfl⟩
  | some su =>
    cases hc : ble.parse c with
    | none => exact Or.inl ⟨_, rfl⟩
    | some cu =>
      cases hf : findInServices su cu t.profile.Services with
      | none =>
        exact Or.inr (Or.inl ⟨notFoundError s c, by
          simp [bind, Except.bind, hf, pure, Except.pure]⟩)
      | some ch =>
        cases he : ble.subscribeErr ch with
        | some e =>
          exact Or.inr (Or.inl ⟨e, by
            simp [bind, Except.bind, hf, pure, Except.pure, Subscribe, he]⟩)
        | none =>
          exact Or.inr (Or.inr ⟨ch, by
            simp [bind, Except.bind, hf, pure, Except.pure, Subscribe, he]⟩)

theorem enable_steps (ble : Ble) (t : Thingy) (s c : String) (f : Family) :
    (∃ p, enable ble t s c f = .error p) ∨
    (∃ e, enable ble t s c f = .ok (some e, t)) ∨
    (∃ t1, enable ble t s c f = .ok (none, t1) ∧ t1.profile = t.profile ∧ t1.mac = t.mac ∧
      t1.subscriptions.map (fun e => e.2) = t.subscriptions.map (fun e => e.2) ++ [f]) := by
  rcases enable_cases ble t s c f with h | h | ⟨ch, h⟩
  · exact Or.inl h
  · exact Or.inr (Or.inl h)
  · exact Or.inr (Or.inr ⟨_, h, rfl, rfl, by simp⟩)

theorem returnsNil_enable_congr (ble : Ble) (t1 t2 : Thingy) (s c : String) (f1 f2 : Family)
    (h : t1.profile = t2.profile) :
    returnsNil (enable ble t1 s c f1) = returnsNil (enable ble t2 s c f2) := by
  unfold enable getCharacteristic MustParse
  rw [h]
  cases ble.parse s with
  | none => rfl
  | some su =>
    cases ble.parse c with
    | none => rfl
    | some cu =>
      cases hf : findInServices su cu t2.profile.Services with
      | none => simp [bind, Except.bind, hf, pure, Except.pure, returnsNil]
      | some ch =>
        cases he : ble.subscribeErr ch <;>
          simp [bind, Except.bind, hf, pure, Except.pure, Subscribe, he, returnsNil]

/-- The set-up sequence, case by case: it stops at the first `...Enable` that
does not return nil, having published the discovery messages of the families
before it. -/
theorem main_setup_cases (ble : Ble) (deviceName : String) (t : Thingy) (m : List Message) :
    (returnsNil (TemperatureEnable ble t) = false ∧
      (main_setup ble deviceName t m).mqttClient = m ∧
      (main_setup ble deviceName t m).exit ≠ none ∧
      (main_setup ble deviceName t m).t.subscriptions = t.subscriptions) ∨
    (returnsNil (TemperatureEnable ble t) = true ∧
      returnsNil (PressureEnable ble t) = false ∧
      (main_setup ble deviceName t m).mqttClient
        = publishDiscovery m t.MAC "temperature" "temperature" deviceName "°C" ∧
      (main_setup ble deviceName t m).exit ≠ none ∧
      (main_setup ble deviceName t m).t.subscriptions.map (fun e => e.2)
        = t.subscriptions.map (fun e => e.2) ++ [.temperature]) ∨
    (returnsNil (TemperatureEnable ble t) = true ∧
      returnsNil (PressureEnable ble t) = true ∧
      returnsNil (HumidityEnable ble t) = false ∧
      (main_setup ble deviceName t m).mqttClient
        = publishDiscovery (publishDiscovery m t.MAC "temperature" "temperature" deviceName "°C")
            t.MAC "pressure" "pressure" deviceName "hPa" ∧
      (main_setup ble deviceName t m).exit ≠ none ∧
      (main_setup ble deviceName t m).t.subscriptions.map (fun e => e.2)
        = t.subscriptions.map (fun e => e.2) ++ [.temperature, .pressure]) ∨
    (returnsNil (TemperatureEnable ble t) = true ∧
      returnsNil (PressureEnable ble t) = true ∧
      returnsNil (HumidityEnable ble t) = true ∧
      returnsNil (GasEnable ble t) = false ∧
      (main_setup ble deviceName t m).mqttClient
        = publishDiscovery (publishDiscovery
            (publishDiscovery m t.MAC "temperature" "temperature" deviceName "°C")
            t.MAC "pressure" "pressure" deviceName "hPa")
            t.MAC "humidity" "humidity" deviceName "%" ∧
      (main_setup ble deviceName t m).exit ≠ none ∧
      (main_setup ble deviceName t m).t.subscriptions.map (fun e => e.2)
        = t.subscriptions.map (fun e => e.2) ++ [.temperature, .pressure, .humidity]) ∨
    (returnsNil (TemperatureEnable ble t) = true ∧
      returnsNil (PressureEnable ble t) = true ∧
      returnsNil (HumidityEnable ble t) = true ∧
      returnsNil (GasEnable ble t) = true ∧
      (main_setup ble deviceName t m).mqttClient
        = publishDiscovery (publishDiscovery (publishDiscovery (publishDiscovery
            (publishDiscovery m t.MAC "temperature" "temperature" deviceName "°C")
            t.MAC "pressure" "pressure" deviceName "hPa")
            t.MAC "humidity" "humidity" deviceName "%")
            t.MAC "eco2" "carbon_dioxide" deviceName "ppm")
            t.MAC "number" "volatile_organic_compounds" deviceName "ppb" ∧
      (main_setup ble deviceName t m).exit = none ∧
      (main_setup ble deviceName t m).t.subscriptions.map (fun e => e.2)
        = t.subscriptions.map (fun e => e.2) ++ [.temperature, .pressure, .humidity, .gas]) := by
  rcases enable_steps ble t TES_UUID TES_TEMP_UUID .temperature
    with ⟨p, h1⟩ | ⟨e, h1⟩ | ⟨t1, h1, p1, m1, s1⟩
  · have r1 : returnsNil (TemperatureEnable ble t) = false := by
      rw [TemperatureEnable, h1]; rfl
    exact Or.inl ⟨r1, by simp [main_setup, TemperatureEnable, h1]⟩
  · have r1 : returnsNil (TemperatureEnable ble t) = false := by
      rw [TemperatureEnable, h1]; rfl
    exact Or.inl ⟨r1, by simp [main_setup, TemperatureEnable, h1]⟩
  have r1 : returnsNil (TemperatureEnable ble t) = true := by
    rw [TemperatureEnable, h1]; rfl
  right
  have g2 := returnsNil_enable_congr ble t1 t TES_UUID TES_PRESS_UUID .pressure .pressure p1
  rcases enable_steps ble t1 TES_UUID TES_PRESS_UUID .pressure
    with ⟨p, h2⟩ | ⟨e, h2⟩ | ⟨t2, h2, p2, m2, s2⟩
  · have r2 : returnsNil (PressureEnable ble t) = false := by
      rw [PressureEnable, ← g2, h2]; rfl
    exact Or.inl ⟨r1, r2, by
      simp [main_setup, TemperatureEnable, PressureEnable, h1, h2, Thingy.MAC, m1, s1]⟩
  · have r2 : returnsNil (PressureEnable ble t) = false := by
      rw [PressureEnable, ← g2, h2]; rfl
    exact Or.inl ⟨r1, r2, by
      simp [main_setup, TemperatureEnable, PressureEnable, h1, h2, Thingy.MAC, m1, s1]⟩
  have r2 : returnsNil (PressureEnable ble t) = true := by
    rw [PressureEnable, ← g2, h2]; rfl
  right
  have g3 := returnsNil_enable_congr ble t2 t TES_UUID TES_HUMID_UUID .humidity .humidity
    (p2.trans p1)
  rcases enable_steps ble t2 TES_UUID TES_HUMID_UUID .humidity
    with ⟨p, h3⟩ | ⟨e, h3⟩ | ⟨t3, h3, p3, m3, s3⟩
  · have r3 : returnsNil (HumidityEnable ble t) = false := by
      rw [HumidityEnable, ← g3, h3]; rfl
    exact Or.inl ⟨r1, r2, r3, by
      simp [main_setup, TemperatureEnable, PressureEnable, HumidityEnable, h1, h2, h3,
        Thingy.MAC, m1, m2, s1, s2]⟩
  · have r3 : returnsNil (HumidityEnable ble t) = false := by
      rw [HumidityEnable, ← g3, h3]; rfl
    exact Or.inl ⟨r1, r2, r3, by
      simp [main_setup, TemperatureEnable, PressureEnable, HumidityEnable, h1, h2, h3,
        Thingy.MAC, m1, m2, s1, s2]⟩
  have r3 : returnsNil (HumidityEnable ble t) = true := by
    rw [HumidityEnable, ← g3, h3]; rfl
  right
  have g4 := returnsNil_enable_congr ble t3 t TES_UUID TES_GAS_UUID .gas .gas
    (p3.trans (p2.trans p1))
  rcases enable_steps ble t3 TES_UUID TES_GAS_UUID .gas
    with ⟨p, h4⟩ | ⟨e, h4⟩ | ⟨t4, h4, p4, m4, s4⟩
  · have r4 : returnsNil (GasEnable ble t) = false := by
      rw [GasEnable, ← g4, h4]; rfl
    exact Or.inl ⟨r1, r2, r3, r4, by
      simp [main_setup, TemperatureEnable, PressureEnable, HumidityEnable, GasEnable, h1, h2, h3,
        h4, Thingy.MAC, m1, m2, m3, s1, s2, s3]⟩
  · have r4 : returnsNil (GasEnable ble t) = false := by
      rw [GasEnable, ← g4, h4]; rfl
    exact Or.inl ⟨r1, r2, r3, r4, by
      simp [main_setup, TemperatureEnable, PressureEnable, HumidityEnable, GasEnable, h1, h2, h3,
        h4, Thingy.MAC, m1, m2, m3, s1, s2, s3]⟩
  have r4 : returnsNil (GasEnable ble t) = true := by
    rw [GasEnable, ← g4, h4]; rfl
  exact Or.inr ⟨r1, r2, r3, r4, by
    simp [main_setup, TemperatureEnable, PressureEnable, HumidityEnable, GasEnable, h1, h2, h3,
      h4, Thingy.MAC, m1, m2, m3, m4, s1, s2, s3, s4]⟩

theorem roundHalfEven_intCast (z : ℤ) : roundHalfEven (z : ℚ) = z := by
  simp [roundHalfEven]

theorem roundHalfEven_error (x : ℚ) : |(roundHalfEven x : ℚ) - x| ≤ 1 / 2 := by
  have h0 : (⌊x⌋ : ℚ) ≤ x := Int.floor_le x
  have h1 : x < ⌊x⌋ + 1 := Int.lt_floor_add_one x
  unfold roundHalfEven
  simp only
  split_ifs with ha hb hc
  · rw [abs_le]; constructor <;> linarith
  · rw [abs_le]; push_cast; constructor <;> linarith
  · rw [abs_le]; constructor <;> linarith
  · rw [abs_le]; push_cast; constructor <;> linarith

theorem f32Ulp_pos (q : ℚ) : 0 < f32Ulp q := by
  unfold f32Ulp; positivity

theorem f32Exponent_le (q : ℚ) (E : ℤ) (hE : -126 ≤ E) (hq0 : q ≠ 0)
    (hq : |q| < (2 : ℚ) ^ (E + 1)) : f32Exponent q ≤ E := by
  have hpos : 0 < |q| := abs_pos.mpr hq0
  have h := (Int.lt_zpow_iff_log_lt (b := 2) (by norm_num) hpos (x := E + 1)).mp
    (by simpa using hq)
  unfold f32Exponent
  exact max_le (by omega) hE

theorem f32Round_error_abs (q : ℚ) (E : ℤ) (hE : -126 ≤ E) (hq : |q| < (2 : ℚ) ^ (E + 1)) :
    |f32Round q - q| ≤ (2 : ℚ) ^ (E - 24) := by
  by_cases hq0 : q = 0
  · simp [f32Round, hq0]; positivity
  have hu := f32Ulp_pos q
  have hle : f32Ulp q ≤ (2 : ℚ) ^ (E - 23) := by
    unfold f32Ulp
    exact zpow_le_zpow_right₀ (by norm_num) (by have := f32Exponent_le q E hE hq0 hq; omega)
  have herr := roundHalfEven_error (q / f32Ulp q)
  have hrw : f32Round q - q = ((roundHalfEven (q / f32Ulp q) : ℚ) - q / f32Ulp q) * f32Ulp q := by
    simp only [f32Round, hq0, if_false]
    field_simp
  rw [hrw, abs_mul, abs_of_pos hu]
  have h2 : (2 : ℚ) ^ (E - 24) = 1 / 2 * (2 : ℚ) ^ (E - 23) := by
    rw [show E - 23 = (E - 24) + 1 by ring, zpow_add_one₀ (by norm_num)]; ring
  rw [h2]
  exact mul_le_mul herr hle hu.le (by norm_num)

theorem f32Round_error_rel (q : ℚ) (hq : (2 : ℚ) ^ (-126 : ℤ) ≤ |q|) :
    |f32Round q - q| ≤ |q| / 2 ^ 24 := by
  have hpos : 0 < |q| := lt_of_lt_of_le (by positivity) hq
  have hl : (-126 : ℤ) ≤ Int.log 2 |q| :=
    (Int.zpow_le_iff_le_log (b := 2) (by norm_num) hpos).mp (by simpa using hq)
  have hlt : |q| < (2 : ℚ) ^ (Int.log 2 |q| + 1) := by
    simpa using Int.lt_zpow_succ_log_self (b := 2) (by norm_num) |q|
  have hge : (2 : ℚ) ^ (Int.log 2 |q|) ≤ |q| := by
    simpa using Int.zpow_log_le_self (b := 2) (by norm_num) hpos
  have h := f32Round_error_abs q (Int.log 2 |q|) hl hlt
  have h2 : (2 : ℚ) ^ (Int.log 2 |q| - 24) = (2 : ℚ) ^ (Int.log 2 |q|) / 2 ^ 24 := by
    rw [zpow_sub₀ (by norm_num)]; norm_num
  rw [h2] at h
  exact h.trans (div_le_div_of_nonneg_right hge (by positivity))

theorem f32Round_exact (m k : ℤ) (hm : |m| < 2 ^ 24) (hk : -149 ≤ k) :
    f32Round ((m : ℚ) * (2 : ℚ) ^ k) = (m : ℚ) * (2 : ℚ) ^ k := by
  by_cases hq0 : (m : ℚ) * (2 : ℚ) ^ k = 0
  · simp [f32Round, hq0]
  have hlt : |(m : ℚ) * (2 : ℚ) ^ k| < (2 : ℚ) ^ (k + 23 + 1) := by
    rw [abs_mul, abs_of_pos (by positivity : (0 : ℚ) < (2 : ℚ) ^ k),
      show k + 23 + 1 = 24 + k by ring, zpow_add₀ (by norm_num)]
    apply mul_lt_mul_of_pos_right _ (by positivity)
    have h24 : (|m| : ℚ) < 2 ^ 24 := by exact_mod_cast hm
    norm_num at h24 ⊢
    exact h24
  have he := f32Exponent_le _ (k + 23) (by omega) hq0 hlt
  obtain ⟨j, hj⟩ : ∃ j : ℕ, k + 23 - f32Exponent ((m : ℚ) * (2 : ℚ) ^ k) = j :=
    ⟨(k + 23 - f32Exponent ((m : ℚ) * (2 : ℚ) ^ k)).toNat, by omega⟩
  have hdiv : (m : ℚ) * (2 : ℚ) ^ k / f32Ulp ((m : ℚ) * (2 : ℚ) ^ k) = ((m * 2 ^ j : ℤ) : ℚ) := by
    unfold f32Ulp
    rw [mul_div_assoc, ← zpow_sub₀ (by norm_num)]
    rw [show k - (f32Exponent ((m : ℚ) * (2 : ℚ) ^ k) - 23) = (j : ℤ) by omega]
    push_cast
    rw [zpow_natCast]
  have hu := f32Ulp_pos ((m : ℚ) * (2 : ℚ) ^ k)
  simp only [f32Round, hq0, if_false]
  rw [hdiv, roundHalfEven_intCast, ← hdiv]
  field_simp

theorem f32Round_error_mixed (q : ℚ) : |f32Round q - q| ≤ |q| / 2 ^ 24 + 1 / 2 ^ 150 := by
  by_cases h : (2 : ℚ) ^ (-126 : ℤ) ≤ |q|
  · have h1 := f32Round_error_rel q h
    have h2 : (0 : ℚ) ≤ 1 / 2 ^ 150 := by positivity
    linarith
  · have hlt : |q| < (2 : ℚ) ^ ((-126 : ℤ) + 1) := by
      have h3 : (2 : ℚ) ^ (-126 : ℤ) ≤ (2 : ℚ) ^ ((-126 : ℤ) + 1) :=
        zpow_le_zpow_right₀ (by norm_num) (by norm_num)
      exact lt_of_lt_of_le (not_le.mp h) h3
    have h1 := f32Round_error_abs q (-126) le_rfl hlt
    have h2 : (2 : ℚ) ^ ((-126 : ℤ) - 24) = 1 / 2 ^ 150 := by
      rw [show ((-126 : ℤ) - 24) = -(150 : ℕ) by norm_num, zpow_neg, zpow_natCast]
      simp
    rw [h2] at h1
    have h4 : (0 : ℚ) ≤ |q| / 2 ^ 24 := by positivity
    linarith

theorem f32Round_intCast (n : ℤ) (h : |n| < 2 ^ 24) : f32Round (n : ℚ) = n := by
  have := f32Round_exact n 0 h (by norm_num)
  simpa using this

theorem f32Round_natCast (n : ℕ) (h : n < 2 ^ 24) : f32Round (n : ℚ) = n := by
  have := f32Round_intCast (n : ℤ) (by rw [abs_of_nonneg (by positivity)]; exact_mod_cast h)
  simpa using this

theorem f32Round_half (m : ℤ) (h : |m| < 2 ^ 24) : f32Round ((m : ℚ) / 2) = (m : ℚ) / 2 := by
  have := f32Round_exact m (-1) h (by norm_num)
  have e : (m : ℚ) * (2 : ℚ) ^ (-1 : ℤ) = (m : ℚ) / 2 := by
    rw [zpow_neg_one]; ring
  rwa [e] at this

theorem int8_eq_signed8 (b : Byte) : int8 b = signed8 b := by
  have h := b.isLt
  unfold int8 signed8
  split_ifs <;> omega

theorem leUint32_quad (b0 b1 b2 b3 : Byte) (spare : List Byte) :
    leUint32 ⟨[b0, b1, b2, b3], spare⟩ = .ok (uint32LE b0 b1 b2 b3) := by
  have h0 := b0.isLt
  have h1 := b1.isLt
  have h2 := b2.isLt
  have h3 := b3.isLt
  have e1 : (b1.val <<< 8) % 4294967296 = b1.val <<< 8 := by
    rw [Nat.shiftLeft_eq]; exact Nat.mod_eq_of_lt (by omega)
  have e2 : (b2.val <<< 16) % 4294967296 = b2.val <<< 16 := by
    rw [Nat.shiftLeft_eq]; exact Nat.mod_eq_of_lt (by omega)
  have e3 : (b3.val <<< 24) % 4294967296 = b3.val <<< 24 := by
    rw [Nat.shiftLeft_eq]; exact Nat.mod_eq_of_lt (by omega)
  have hv : ((b0.val % 4294967296) ||| ((b1.val % 4294967296) <<< 8) % 4294967296
      ||| ((b2.val % 4294967296) <<< 16) % 4294967296
      ||| ((b3.val % 4294967296) <<< 24) % 4294967296) = uint32LE b0 b1 b2 b3 := by
    rw [Nat.mod_eq_of_lt (by omega : b0.val < 4294967296),
      Nat.mod_eq_of_lt (by omega : b1.val < 4294967296),
      Nat.mod_eq_of_lt (by omega : b2.val < 4294967296),
      Nat.mod_eq_of_lt (by omega : b3.val < 4294967296), e1, e2, e3,
      lor_shiftLeft_of_lt 8 (by omega) b1.val,
      lor_shiftLeft_of_lt 16 (by omega) b2.val,
      lor_shiftLeft_of_lt 24 (by omega) b3.val]
    unfold uint32LE
    norm_num
  simp only [leUint32, Slice.index, bind, Except.bind, pure, Except.pure, List.getElem?_cons_zero,
    List.getElem?_cons_succ, hv]

theorem f32Div_hundred_bounds (d : ℕ) (hd : d < 256) :
    |f32Div (d : ℚ) 100 - (d : ℚ) / 100| ≤ 3 / 2 ^ 24 ∧ |f32Div (d : ℚ) 100| ≤ 3 := by
  have hd2 : (d : ℚ) ≤ 255 := by exact_mod_cast Nat.lt_succ_iff.mp hd
  have hd0 : (0 : ℚ) ≤ d := by positivity
  have hq : |(d : ℚ) / 100| = (d : ℚ) / 100 := abs_of_nonneg (by positivity)
  have h := f32Round_error_mixed ((d : ℚ) / 100)
  rw [hq] at h
  have htiny : (1 : ℚ) / 2 ^ 150 ≤ 1 / 10 / 2 ^ 24 := by norm_num
  have h1 : |f32Div (d : ℚ) 100 - (d : ℚ) / 100| ≤ 3 / 2 ^ 24 := by
    unfold f32Div
    refine h.trans ?_
    have : (d : ℚ) / 100 / 2 ^ 24 ≤ (255 / 100) / 2 ^ 24 := by
      apply div_le_div_of_nonneg_right _ (by positivity)
      linarith
    have e : (3 : ℚ) / 2 ^ 24 = (255 / 100) / 2 ^ 24 + (45 / 100) / 2 ^ 24 := by norm_num
    have : (1 : ℚ) / 10 / 2 ^ 24 ≤ (45 / 100) / 2 ^ 24 := by norm_num
    linarith
  refine ⟨h1, ?_⟩
  have h3 : (3 : ℚ) / 2 ^ 24 ≤ 1 / 10 := by norm_num
  rw [abs_le] at h1 ⊢
  constructor <;> linarith [h1.1, h1.2]

theorem onTempNotif_value (b0 b1 : Byte) :
    f32Add (f32OfInt (int8 b0)) (f32Div (f32OfNat (uint8 b1)) (f32Const 100))
      = readingValue (signed8 b0) b1.val := by
  have h0 := b0.isLt
  have h1 := b1.isLt
  have hs : |signed8 b0| < 2 ^ 24 := by
    unfold signed8
    rw [abs_lt]
    split_ifs <;> constructor <;> omega
  have e1 : f32OfInt (int8 b0) = (signed8 b0 : ℚ) := by
    rw [int8_eq_signed8]
    exact f32Round_intCast _ hs
  have e2 : f32OfNat (uint8 b1) = (b1.val : ℚ) := by
    unfold f32OfNat uint8
    rw [Nat.mod_eq_of_lt h1]
    exact f32Round_natCast _ (by omega)
  have e3 : f32Const 100 = 100 := by
    have := f32Round_natCast 100 (by norm_num)
    simpa [f32Const] using this
  rw [e1, e2, e3, readingValue]

theorem onPressNotif_value (n : ℕ) (b4 : Byte) :
    f32Add (f32OfNat n) (f32Div (f32OfNat (uint8 b4)) (f32Const 100))
      = readingValue (f32OfNat n) b4.val := by
  have h1 := b4.isLt
  have e2 : f32OfNat (uint8 b4) = (b4.val : ℚ) := by
    unfold f32OfNat uint8
    rw [Nat.mod_eq_of_lt h1]
    exact f32Round_natCast _ (by omega)
  have e3 : f32Const 100 = 100 := by
    have := f32Round_natCast 100 (by norm_num)
    simpa [f32Const] using this
  rw [e2, e3, readingValue]

/-! ## Theorems -/

/-- C3, as amended: the address stored by `New` and returned by `MAC()` is the
reported address with every colon removed and every other character kept, in
order and unchanged (no case conversion); it contains no colon, and
"AA:BB:CC:DD:EE:FF" yields "AABBCCDDEEFF". -/
theorem New_mac_strips_colons (addr : String) (p : Profile) :
    (New addr p).MAC = ⟨addr.data.filter (fun c => c != ':')⟩ ∧
    ':' ∉ (New addr p).MAC.data ∧
    (New "AA:BB:CC:DD:EE:FF" p).MAC = "AABBCCDDEEFF" := by
  refine ⟨New_mac_eq_filter addr p, ?_, ?_⟩
  · rw [New_mac_eq_filter addr p]
    simp [List.mem_filter]
  · rw [New_mac_eq_filter]
    decide

/-- C3, counterexample: for the reported address "aa:bb:cc:dd:ee:ff" the stored
address is "aabbccddeeff", which is not uppercase. -/
theorem New_mac_keeps_lowercase :
    (New "aa:bb:cc:dd:ee:ff" ⟨[]⟩).MAC = "aabbccddeeff" ∧
    (New "aa:bb:cc:dd:ee:ff" ⟨[]⟩).MAC ≠ "AABBCCDDEEFF" ∧
    ∃ c ∈ (New "aa:bb:cc:dd:ee:ff" ⟨[]⟩).MAC.data, c.isLower = true := by
  have h := New_mac_eq_filter "aa:bb:cc:dd:ee:ff" ⟨[]⟩
  refine ⟨?_, ?_, 'a', ?_, by decide⟩
  · rw [h]; decide
  · rw [h]; decide
  · rw [h]; decide

/-- C4: when both UUID strings parse, `getCharacteristic` returns the
characteristic-not-found error exactly when no service of the profile with the
service UUID holds a characteristic with the characteristic UUID, and otherwise
returns the first such characteristic in profile order (services in order,
and the characteristics of each matching service in order). -/
theorem getCharacteristic_first_match (ble : Ble) (t : Thingy) (serviceUUID charUUID : String)
    (sUUID cUUID : UUID) (hs : ble.parse serviceUUID = some sUUID)
    (hc : ble.parse charUUID = some cUUID) :
    (getCharacteristic ble t serviceUUID charUUID
        = .ok (.error (notFoundError serviceUUID charUUID)) ↔
      ¬ ∃ s ∈ t.profile.Services, s.UUID = sUUID ∧ ∃ c ∈ s.Characteristics, c.UUID = cUUID) ∧
    (∀ c, getCharacteristic ble t serviceUUID charUUID = .ok (.ok c) ↔
      firstMatchingCharacteristic t.profile sUUID cUUID = some c) ∧
    ((∃ s ∈ t.profile.Services, s.UUID = sUUID ∧ ∃ c ∈ s.Characteristics, c.UUID = cUUID) →
      ∃ c, getCharacteristic ble t serviceUUID charUUID = .ok (.ok c)) := by
  have hfind := findInServices_eq_first sUUID cUUID t.profile.Services
  have hnone := firstMatching_eq_none_iff t.profile sUUID cUUID
  have hget : getCharacteristic ble t serviceUUID charUUID =
      match firstMatchingCharacteristic t.profile sUUID cUUID with
      | some c => .ok (.ok c)
      | none => .ok (.error (notFoundError serviceUUID charUUID)) := by
    simp only [getCharacteristic, MustParse, hs, hc, bind, Except.bind, hfind]
    cases firstMatchingCharacteristic t.profile sUUID cUUID <;> rfl
  rw [hget]
  cases hf : firstMatchingCharacteristic t.profile sUUID cUUID with
  | none =>
    have hno := hnone.mp hf
    refine ⟨⟨fun _ => hno, fun _ => rfl⟩, ?_, fun hex => absurd hex hno⟩
    intro c
    simp
  | some c0 =>
    have hyes : ¬ ¬ ∃ s ∈ t.profile.Services, s.UUID = sUUID ∧
        ∃ c ∈ s.Characteristics, c.UUID = cUUID := by
      intro hno
      rw [hnone.mpr hno] at hf
      cases hf
    refine ⟨⟨fun h => ?_, fun h => absurd h hyes⟩, ?_, fun _ => ⟨c0, rfl⟩⟩
    · cases h
    · intro c
      simp

/-- C4, witness: in the sample profile the pressure characteristic occurs twice
in the environment service and the first occurrence (handle 31) is returned. -/
theorem getCharacteristic_first_match_witness :
    sampleBle.parse TES_UUID = some [2] ∧ sampleBle.parse TES_PRESS_UUID = some [12] ∧
    getCharacteristic sampleBle (New "AA:BB:CC:DD:EE:FF" sampleProfile) TES_UUID TES_PRESS_UUID
      = .ok (.ok ⟨[12], 31⟩) :=
  ⟨by decide, by decide,
    ((getCharacteristic_first_match sampleBle (New "AA:BB:CC:DD:EE:FF" sampleProfile)
      TES_UUID TES_PRESS_UUID [2] [12] (by decide) (by decide)).2.1 ⟨[12], 31⟩).mpr (by decide)⟩

/-- C7: for every byte slice of length at least 4, while the gas queue is
open, `onGasNotif` appends exactly one reading to the queue, with
eco2 = b0 + 256*b1 and tvoc = b2 + 256*b3 (later bytes are ignored), and changes
nothing else; bytes 01 02 03 04 give eco2 = 513 and tvoc = 1027. -/
theorem onGasNotif_decodes (t : Thingy) (data : Slice) (hlen : 4 ≤ data.len)
    (hopen : t.GasNotif.closed = false) :
    (∃ b0 b1 b2 b3 rest, data.elems = b0 :: b1 :: b2 :: b3 :: rest ∧
      onGasNotif t data = .ok { t with GasNotif :=
        { items := t.GasNotif.items
            ++ [{ ECO2 := b0.val + 256 * b1.val, TVOC := b2.val + 256 * b3.val }]
          closed := false } }) ∧
    ((data.elems.take 4 = [0x01, 0x02, 0x03, 0x04]) →
      onGasNotif t data = .ok { t with GasNotif :=
        { items := t.GasNotif.items ++ [{ ECO2 := 513, TVOC := 1027 }], closed := false } }) := by
  obtain ⟨b0, b1, b2, b3, rest, he⟩ := list_of_four_le data.elems hlen
  have hrun : onGasNotif t data = .ok { t with GasNotif :=
        { items := t.GasNotif.items
            ++ [{ ECO2 := b0.val + 256 * b1.val, TVOC := b2.val + 256 * b3.val }]
          closed := false } } := by
    obtain ⟨elems, spare⟩ := data
    simp only at he
    subst he
    have h1 : Slice.reslice ⟨b0 :: b1 :: b2 :: b3 :: rest, spare⟩ 0 2
        = .ok ⟨[b0, b1], b2 :: b3 :: (rest ++ spare)⟩ := by
      simp [Slice.reslice, Slice.cap]
      omega
    have h2 : Slice.reslice ⟨b0 :: b1 :: b2 :: b3 :: rest, spare⟩ 2 4
        = .ok ⟨[b2, b3], rest ++ spare⟩ := by
      simp [Slice.reslice, Slice.cap]
      omega
    simp only [onGasNotif, h1, h2, leUint16_pair, Chan.send, hopen, bind, Except.bind, pure,
      Except.pure]
    rfl
  refine ⟨⟨b0, b1, b2, b3, rest, he, hrun⟩, ?_⟩
  intro hex
  rw [he] at hex
  simp only [List.take_succ_cons, List.take_zero, List.cons.injEq, and_true] at hex
  obtain ⟨e0, e1, e2, e3⟩ := hex
  rw [hrun, e0, e1, e2, e3]
  rfl

/-- C7, witness: the callback run on the four bytes 01 02 03 04 with a fresh
session. -/
theorem onGasNotif_decodes_witness :
    4 ≤ (Slice.mk [0x01, 0x02, 0x03, 0x04] []).len ∧
    (New "AA:BB:CC:DD:EE:FF" sampleProfile).GasNotif.closed = false ∧
    onGasNotif (New "AA:BB:CC:DD:EE:FF" sampleProfile) ⟨[0x01, 0x02, 0x03, 0x04], []⟩
      = .ok { New "AA:BB:CC:DD:EE:FF" sampleProfile with GasNotif :=
        { items := [{ ECO2 := 513, TVOC := 1027 }], closed := false } } :=
  ⟨by decide, rfl,
    (onGasNotif_decodes (New "AA:BB:CC:DD:EE:FF" sampleProfile) ⟨[0x01, 0x02, 0x03, 0x04], []⟩
      (by decide) rfl).2 rfl⟩

/-- C1, as amended: a decode callback given a slice shorter than its width
returns no error value; it stops with a Go run-time bounds panic and pushes
nothing.  This holds for every short slice for the temperature (2), pressure
(5), humidity (1) and button (1) callbacks, and for the gas (4) and colour (8)
callbacks for every slice whose capacity is below the width (in particular
whenever the capacity equals the length). -/
theorem short_payload_panics (t : Thingy) (data : Slice) :
    (data.len < 2 → onTempNotif t data = .error (.indexOutOfRange data.len data.len)) ∧
    (data.len < 5 → onPressNotif t data = .error
      (if data.cap < 4 then .sliceBoundsOutOfRange 4 data.cap
       else .indexOutOfRange 4 data.len)) ∧
    (data.len < 1 → onHumidNotif t data = .error (.indexOutOfRange 0 0)) ∧
    (data.len < 1 → onBtnNotif t data = .error (.indexOutOfRange 0 0)) ∧
    (data.cap < 4 → onGasNotif t data = .error
      (.sliceBoundsOutOfRange (if data.cap < 2 then 2 else 4) data.cap)) ∧
    (data.cap < 8 → onColorNotif t data = .error
      (.sliceBoundsOutOfRange
        (if data.cap < 2 then 2 else if data.cap < 4 then 4 else if data.cap < 6 then 6 else 8)
        data.cap)) := by
  obtain ⟨elems, spare⟩ := data
  refine ⟨?_, ?_, ?_, ?_, ?_, ?_⟩
  · intro h
    match elems, h with
    | [], _ => rfl
    | [_], _ => rfl
  · intro h
    simp only [Slice.len] at h
    by_cases hc : (Slice.mk elems spare).cap < 4
    · simp [onPressNotif, Slice.reslice, hc, bind, Except.bind]
    · have hl : elems[4]? = none := by
        rw [List.getElem?_eq_none_iff]; omega
      have hlen4 : 4 ≤ (elems ++ spare).length := by
        simp only [Slice.cap] at hc
        simp only [List.length_append]; omega
      obtain ⟨b0, b1, b2, b3, rest, he⟩ := list_of_four_le (elems ++ spare) hlen4
      simp [onPressNotif, Slice.reslice, hc, bind, Except.bind, he, leUint32, Slice.index, hl,
        Slice.len, pure, Except.pure]
  · intro h
    match elems, h with
    | [], _ => rfl
  · intro h
    match elems, h with
    | [], _ => rfl
  · intro h
    by_cases hc : (Slice.mk elems spare).cap < 2
    · simp [onGasNotif, Slice.reslice, hc, bind, Except.bind]
    · have hlen2 : 2 ≤ (elems ++ spare).length := by
        simp only [Slice.cap] at hc
        simp only [List.length_append]; omega
      match hm : elems ++ spare, hlen2 with
      | b0 :: b1 :: rest, _ =>
        simp [onGasNotif, Slice.reslice, hc, h, bind, Except.bind, hm, leUint16_pair]
  · intro h
    by_cases h2 : (Slice.mk elems spare).cap < 2
    · simp [onColorNotif, reslice_beyond_cap _ 0 2 h2, h2, bind, Except.bind]
    · obtain ⟨x0, y0, s0, e0⟩ := reslice_pair ⟨elems, spare⟩ 0 2 rfl (by omega)
      by_cases h4 : (Slice.mk elems spare).cap < 4
      · simp [onColorNotif, e0, leUint16_pair, reslice_beyond_cap _ 2 4 h4, h2, h4, bind,
          Except.bind]
      · obtain ⟨x1, y1, s1, e1⟩ := reslice_pair ⟨elems, spare⟩ 2 4 rfl (by omega)
        by_cases h6 : (Slice.mk elems spare).cap < 6
        · simp [onColorNotif, e0, e1, leUint16_pair, reslice_beyond_cap _ 4 6 h6, h2, h4, h6,
            bind, Except.bind]
        · obtain ⟨x2, y2, s2, e2⟩ := reslice_pair ⟨elems, spare⟩ 4 6 rfl (by omega)
          simp [onColorNotif, e0, e1, e2, leUint16_pair, reslice_beyond_cap _ 6 8 h, h2, h4, h6,
            bind, Except.bind]

/-- C1, witness: the temperature callback on a one-byte slice. -/
theorem short_payload_panics_witness :
    (Slice.mk [0x17] []).len < 2 ∧
    onTempNotif sampleThingy ⟨[0x17], []⟩ = .error (.indexOutOfRange 1 1) :=
  ⟨by decide, (short_payload_panics sampleThingy ⟨[0x17], []⟩).1 (by decide)⟩

/-- C1, counterexample: on the one-byte slice 17 the temperature callback
does not fail with a MalformedPayload error, it panics with
`index out of range [1] with length 1`; and on a one-byte slice 01 whose
backing array continues with 02 03 04 inside its capacity the gas callback
does not fail at all: it reads those three bytes and pushes a reading. -/
theorem short_payload_not_rejected :
    onTempNotif sampleThingy ⟨[0x17], []⟩ = .error (.indexOutOfRange 1 1) ∧
    (Slice.mk [0x01] [0x02, 0x03, 0x04]).len = 1 ∧
    onGasNotif sampleThingy ⟨[0x01], [0x02, 0x03, 0x04]⟩
      = .ok { sampleThingy with GasNotif :=
          { items := [{ ECO2 := 513, TVOC := 1027 }], closed := false } } :=
  ⟨rfl, rfl, rfl⟩

/-- C8: `publishDiscovery` publishes exactly one message, on the topic
homeassistant/sensor/NAME/TYPE/config, whose payload has the display name,
the state topic (the topic `publishState` uses for the same device name), the
value template, the unit, the device class, the unique id and the device
descriptor (identifiers, name, manufacturer, model) built from its arguments,
and no other field. -/
theorem publishDiscovery_message (mqttClient : List Message)
    (mac sensorType deviceClass deviceName unit : String) :
    ∃ msg, publishDiscovery mqttClient mac sensorType deviceClass deviceName unit
        = mqttClient ++ [msg] ∧
      msg.topic = "homeassistant/sensor/" ++ deviceName ++ "/" ++ sensorType ++ "/config" ∧
      msg.qos = 0 ∧ msg.retained = false ∧
      msg.payload.keys
        = ["name", "stat_t", "val_tpl", "unit_of_meas", "dev_cla", "uniq_id", "device"] ∧
      msg.payload.lookup "name" = some (.str (deviceName ++ " " ++ sensorType)) ∧
      msg.payload.lookup "stat_t"
        = some (.str ("homeassistant/sensor/" ++ deviceName ++ "/state")) ∧
      (∀ (m2 : List Message) (mac2 sensorType2 : String) (value : GoValue),
        ∃ st, publishState m2 mac2 sensorType2 deviceName value = m2 ++ [st] ∧
          msg.payload.lookup "stat_t" = some (.str st.topic) ∧
          st.payload.keys = [sensorType2]) ∧
      msg.payload.lookup "val_tpl"
        = some (.str ("\x7b\x7b value_json." ++ sensorType ++ " \x7d\x7d")) ∧
      msg.payload.lookup "unit_of_meas" = some (.str unit) ∧
      msg.payload.lookup "dev_cla" = some (.str deviceClass) ∧
      msg.payload.lookup "uniq_id" = some (.str (mac ++ "_" ++ sensorType)) ∧
      (∃ dev, msg.payload.lookup "device" = some dev ∧
        dev.keys = ["identifiers", "name", "manufacturer", "model"] ∧
        dev.lookup "identifiers" = some (.strs [mac]) ∧
        dev.lookup "name" = some (.str deviceName) ∧
        dev.lookup "manufacturer" = some (.str "Nordic Semiconductor") ∧
        dev.lookup "model" = some (.str "Thingy:52")) ∧
      ((deviceName = "Office" ∧ sensorType = "temperature") →
        msg.topic = "homeassistant/sensor/Office/temperature/config") := by
  refine ⟨_, rfl, rfl, rfl, rfl, rfl, rfl, rfl, fun m2 mac2 sensorType2 value => ⟨_, rfl, rfl, rfl⟩,
    rfl, rfl, rfl, rfl, ⟨_, rfl, rfl, rfl, rfl, rfl, rfl⟩, ?_⟩
  rintro ⟨rfl, rfl⟩
  show ("homeassistant/sensor/" ++ "Office" ++ "/" ++ "temperature" ++ "/config" : String)
    = "homeassistant/sensor/Office/temperature/config"
  decide

/-- C8, witness: the discovery message of the temperature sensor of the device
named Office. -/
theorem publishDiscovery_message_witness :
    ((publishDiscovery [] "AABBCCDDEEFF" "temperature" "temperature" "Office" "°C").map
      (fun msg => msg.topic)) = ["homeassistant/sensor/Office/temperature/config"] := by
  obtain ⟨msg, h, _, _, _, _, _, _, _, _, _, _, _, _, hex⟩ :=
    publishDiscovery_message [] "AABBCCDDEEFF" "temperature" "temperature" "Office" "°C"
  rw [h]
  simp [hex ⟨rfl, rfl⟩]

/-- C2, as amended: in the set-up sequence of `main` a family whose enable
fails publishes no discovery message and ends the sequence (`log.Fatalf` exits
the process), so that no later family is enabled or announced; the discovery
messages published are exactly those of the families before the first
failure, and all five are published when the four enables succeed. -/
theorem main_setup_stops_at_first_failure (ble : Ble) (deviceName : String) (t : Thingy)
    (m : List Message) :
    (returnsNil (TemperatureEnable ble t) = false →
      (main_setup ble deviceName t m).mqttClient = m ∧
      (main_setup ble deviceName t m).exit ≠ none ∧
      (main_setup ble deviceName t m).t.subscriptions = t.subscriptions) ∧
    (returnsNil (TemperatureEnable ble t) = true →
      returnsNil (PressureEnable ble t) = false →
      (main_setup ble deviceName t m).mqttClient
        = publishDiscovery m t.MAC "temperature" "temperature" deviceName "°C" ∧
      (main_setup ble deviceName t m).exit ≠ none ∧
      (main_setup ble deviceName t m).t.subscriptions.map (fun e => e.2)
        = t.subscriptions.map (fun e => e.2) ++ [.temperature]) ∧
    (returnsNil (TemperatureEnable ble t) = true →
      returnsNil (PressureEnable ble t) = true →
      returnsNil (HumidityEnable ble t) = false →
      (main_setup ble deviceName t m).mqttClient
        = publishDiscovery (publishDiscovery m t.MAC "temperature" "temperature" deviceName "°C")
            t.MAC "pressure" "pressure" deviceName "hPa" ∧
      (main_setup ble deviceName t m).exit ≠ none ∧
      (main_setup ble deviceName t m).t.subscriptions.map (fun e => e.2)
        = t.subscriptions.map (fun e => e.2) ++ [.temperature, .pressure]) ∧
    (returnsNil (TemperatureEnable ble t) = true →
      returnsNil (PressureEnable ble t) = true →
      returnsNil (HumidityEnable ble t) = true →
      returnsNil (GasEnable ble t) = false →
      (main_setup ble deviceName t m).mqttClient
        = publishDiscovery (publishDiscovery
            (publishDiscovery m t.MAC "temperature" "temperature" deviceName "°C")
            t.MAC "pressure" "pressure" deviceName "hPa")
            t.MAC "humidity" "humidity" deviceName "%" ∧
      (main_setup ble deviceName t m).exit ≠ none ∧
      (main_setup ble deviceName t m).t.subscriptions.map (fun e => e.2)
        = t.subscriptions.map (fun e => e.2) ++ [.temperature, .pressure, .humidity]) ∧
    (returnsNil (TemperatureEnable ble t) = true →
      returnsNil (PressureEnable ble t) = true →
      returnsNil (HumidityEnable ble t) = true →
      returnsNil (GasEnable ble t) = true →
      (main_setup ble deviceName t m).mqttClient
        = publishDiscovery (publishDiscovery (publishDiscovery (publishDiscovery
            (publishDiscovery m t.MAC "temperature" "temperature" deviceName "°C")
            t.MAC "pressure" "pressure" deviceName "hPa")
            t.MAC "humidity" "humidity" deviceName "%")
            t.MAC "eco2" "carbon_dioxide" deviceName "ppm")
            t.MAC "number" "volatile_organic_compounds" deviceName "ppb" ∧
      (main_setup ble deviceName t m).exit = none ∧
      (main_setup ble deviceName t m).t.subscriptions.map (fun e => e.2)
        = t.subscriptions.map (fun e => e.2) ++ [.temperature, .pressure, .humidity, .gas]) := by
  rcases main_setup_cases ble deviceName t m with
    ⟨a1, h⟩ | ⟨a1, a2, h⟩ | ⟨a1, a2, a3, h⟩ | ⟨a1, a2, a3, a4, h⟩ | ⟨a1, a2, a3, a4, h⟩
  · refine ⟨fun _ => h, ?_, ?_, ?_, ?_⟩ <;> intro b1 <;> simp [a1] at b1
  · refine ⟨?_, fun _ _ => h, ?_, ?_, ?_⟩
    · intro b1; simp [a1] at b1
    all_goals intro _ b2; simp [a2] at b2
  · refine ⟨?_, ?_, fun _ _ _ => h, ?_, ?_⟩
    · intro b1; simp [a1] at b1
    · intro _ b2; simp [a2] at b2
    all_goals intro _ _ b3; simp [a3] at b3
  · refine ⟨?_, ?_, ?_, fun _ _ _ _ => h, ?_⟩
    · intro b1; simp [a1] at b1
    · intro _ b2; simp [a2] at b2
    · intro _ _ b3; simp [a3] at b3
    · intro _ _ _ b4; simp [a4] at b4
  · refine ⟨?_, ?_, ?_, ?_, fun _ _ _ _ => h⟩
    · intro b1; simp [a1] at b1
    · intro _ b2; simp [a2] at b2
    · intro _ _ b3; simp [a3] at b3
    · intro _ _ _ b4; simp [a4] at b4

/-- C2, witness: on the sample profile the temperature enable fails and the
set-up publishes nothing. -/
theorem main_setup_stops_at_first_failure_witness :
    returnsNil (TemperatureEnable sampleBle sampleThingy) = false ∧
    (main_setup sampleBle "Office" sampleThingy []).mqttClient = [] :=
  ⟨by decide,
    ((main_setup_stops_at_first_failure sampleBle "Office" sampleThingy []).1 (by decide)).1⟩

/-- C2, counterexample: on the sample profile the temperature characteristic is
missing, so the temperature enable fails, while the pressure, humidity and gas
enables would succeed; `main` then exits at the temperature failure, having
subscribed to nothing and published no discovery message at all. -/
theorem main_setup_skips_families_after_failure :
    returnsNil (TemperatureEnable sampleBle sampleThingy) = false ∧
    returnsNil (PressureEnable sampleBle sampleThingy) = true ∧
    returnsNil (HumidityEnable sampleBle sampleThingy) = true ∧
    returnsNil (GasEnable sampleBle sampleThingy) = true ∧
    (main_setup sampleBle "Office" sampleThingy []).mqttClient.length = 0 ∧
    (main_setup sampleBle "Office" sampleThingy []).t.subscriptions = [] ∧
    (main_setup sampleBle "Office" sampleThingy []).exit
      = some (.fatal ("failed to enable temperature notification: "
          ++ "characteristic ef6802019b3549339b1052ffa9740042 not found in service "
          ++ "ef6802009b3549339b1052ffa9740042")) := by
  refine ⟨by decide, by decide, by decide, by decide, by decide, by decide, by decide⟩

/-- C9, as amended: an iteration of the dispatch loop ends the whole loop
exactly when the case that `select` chose reports closure of its queue (closed
and drained), whatever the state of the other queues, whose readings then stay
unread and unpublished; an iteration whose queue is open, or still holds
readings, consumes one reading of that queue, publishes it and keeps the loop
running.  So the loop never terminates while all four queues are open, and
terminates as soon as one closed, drained queue is selected. -/
theorem dispatch_stops_at_first_closure (deviceName : String) (c : Case) (s s2 : Dispatch)
    (hrun : s.running = true) (h : selectCase deviceName c s = some s2) :
    (s2.running = false ↔ queueClosedAndDrained c s.t = true) ∧
    (queueOpen c s.t = true → s2.running = true) ∧
    (s2.running = false →
      s2.t = s.t ∧ s2.mqttClient = s.mqttClient ∧ ∀ s3, ¬ DispatchStep deviceName s2 s3) ∧
    (s2.running = true →
      queueLength c s.t = queueLength c s2.t + 1 ∧
      (∀ d, d ≠ c → queueLength d s2.t = queueLength d s.t) ∧
      (∃ new, s2.mqttClient = s.mqttClient ++ new ∧
        new.flatMap (fun msg => msg.payload.keys) = stateKeys c)) := by
  obtain ⟨t, mq, running⟩ := s
  simp only at hrun
  subst hrun
  have hstop : ∀ x : Dispatch, x.running = false → ∀ s3, ¬ DispatchStep deviceName x s3 := by
    intro x hx s3 hstep
    rw [hstep.1] at hx
    cases hx
  cases c
  · simp only [selectCase, Chan.recv] at h
    cases hi : t.TempNotif.items with
    | nil =>
      cases hc : t.TempNotif.closed with
      | false => simp [hi, hc] at h
      | true =>
        simp only [hi, hc, if_true, Option.some.injEq] at h
        subst h
        simp [queueClosedAndDrained, queueOpen, hi, hc, hstop]
    | cons v rest =>
      simp only [hi, Option.some.injEq] at h
      subst h
      refine ⟨by simp [queueClosedAndDrained, hi], by simp, by simp, fun _ => ⟨?_, ?_, ?_⟩⟩
      · simp [queueLength, hi]
      · intro d hd
        cases d <;> simp_all [queueLength]
      · exact ⟨_, rfl, rfl⟩
  · simp only [selectCase, Chan.recv] at h
    cases hi : t.PressNotif.items with
    | nil =>
      cases hc : t.PressNotif.closed with
      | false => simp [hi, hc] at h
      | true =>
        simp only [hi, hc, if_true, Option.some.injEq] at h
        subst h
        simp [queueClosedAndDrained, queueOpen, hi, hc, hstop]
    | cons v rest =>
      simp only [hi, Option.some.injEq] at h
      subst h
      refine ⟨by simp [queueClosedAndDrained, hi], by simp, by simp, fun _ => ⟨?_, ?_, ?_⟩⟩
      · simp [queueLength, hi]
      · intro d hd
        cases d <;> simp_all [queueLength]
      · exact ⟨_, rfl, rfl⟩
  · simp only [selectCase, Chan.recv] at h
    cases hi : t.HumidNotif.items with
    | nil =>
      cases hc : t.HumidNotif.closed with
      | false => simp [hi, hc] at h
      | true =>
        simp only [hi, hc, if_true, Option.some.injEq] at h
        subst h
        simp [queueClosedAndDrained, queueOpen, hi, hc, hstop]
    | cons v rest =>
      simp only [hi, Option.some.injEq] at h
      subst h
      refine ⟨by simp [queueClosedAndDrained, hi], by simp, by simp, fun _ => ⟨?_, ?_, ?_⟩⟩
      · simp [queueLength, hi]
      · intro d hd
        cases d <;> simp_all [queueLength]
      · exact ⟨_, rfl, rfl⟩
  · simp only [selectCase, Chan.recv] at h
    cases hi : t.GasNotif.items with
    | nil =>
      cases hc : t.GasNotif.closed with
      | false => simp [hi, hc] at h
      | true =>
        simp only [hi, hc, if_true, Option.some.injEq] at h
        subst h
        simp [queueClosedAndDrained, queueOpen, hi, hc, hstop]
    | cons v rest =>
      simp only [hi, Option.some.injEq] at h
      subst h
      refine ⟨by simp [queueClosedAndDrained, hi], by simp, by simp, fun _ => ⟨?_, ?_, ?_⟩⟩
      · simp [queueLength, hi]
      · intro d hd
        cases d <;> simp_all [queueLength]
      · refine ⟨[⟨"homeassistant/sensor/" ++ deviceName ++ "/state", 0, false,
            .map [("eco2", .uint16 v.ECO2)]⟩,
          ⟨"homeassistant/sensor/" ++ deviceName ++ "/state", 0, false,
            .map [("tvoc", .uint16 v.TVOC)]⟩], ?_, rfl⟩
        simp [publishState]

/-- C9, witness: with a closed, drained temperature queue the temperature case
ends the loop. -/
theorem dispatch_stops_at_first_closure_witness :
    selectCase "Office" .temp
        ⟨{ sampleThingy with TempNotif := { items := [], closed := true } }, [], true⟩
      = some ⟨{ sampleThingy with TempNotif := { items := [], closed := true } }, [], false⟩ ∧
    ∀ s3, ¬ DispatchStep "Office"
      ⟨{ sampleThingy with TempNotif := { items := [], closed := true } }, [], false⟩ s3 :=
  ⟨rfl, ((dispatch_stops_at_first_closure "Office" .temp
    ⟨{ sampleThingy with TempNotif := { items := [], closed := true } }, [], true⟩
    ⟨{ sampleThingy with TempNotif := { items := [], closed := true } }, [], false⟩
    rfl rfl).2.2.1 rfl).2.2⟩

/-- C9, counterexample: a gas reading is queued and the disconnect goroutine has
closed only the temperature queue; the pressure, humidity and gas queues are
still open and the gas queue holds a reading.  The loop can then take the
temperature case, which reports closure, and terminates: no further step
exists and the gas reading is never published. -/
theorem dispatch_ends_while_queue_open :
    ∃ t, closureScenario = .ok t ∧
      t.TempNotif = { items := [], closed := true } ∧
      t.PressNotif.closed = false ∧ t.HumidNotif.closed = false ∧
      t.GasNotif = { items := [{ ECO2 := 513, TVOC := 1027 }], closed := false } ∧
      DispatchStep "Office" ⟨t, [], true⟩ ⟨t, [], false⟩ ∧
      ∀ s3, ¬ DispatchStep "Office" ⟨t, [], false⟩ s3 := by
  refine ⟨_, rfl, rfl, rfl, rfl, rfl, ⟨rfl, .temp, rfl⟩, ?_⟩
  intro s3 h
  exact Bool.noConfusion h.1

/-- C10, the code at work: when the set-up of `main` completes, the value
templates of the five discovery messages read the keys temperature, pressure,
humidity, eco2 and number, whereas the state payloads published by the
dispatch loop carry the keys temperature, pressure, humidity, eco2 and tvoc.
The announced key number is never published and the published key tvoc is
never announced. -/
theorem discovery_keys_differ_from_state_keys (ble : Ble) (deviceName : String) (t : Thingy)
    (hdone : (main_setup ble deviceName t []).exit = none) :
    (main_setup ble deviceName t []).mqttClient.map valueTemplate
      = [some "\x7b\x7b value_json.temperature \x7d\x7d",
         some "\x7b\x7b value_json.pressure \x7d\x7d",
         some "\x7b\x7b value_json.humidity \x7d\x7d",
         some "\x7b\x7b value_json.eco2 \x7d\x7d",
         some "\x7b\x7b value_json.number \x7d\x7d"] ∧
    (∀ c s s2, selectCase deviceName c s = some s2 →
      ∃ new, s2.mqttClient = s.mqttClient ++ new ∧
        (new = [] ∨ new.flatMap (fun msg => msg.payload.keys) = stateKeys c)) ∧
    [Case.temp, .press, .humid, .gas].flatMap stateKeys
      = ["temperature", "pressure", "humidity", "eco2", "tvoc"] ∧
    "number" ∉ [Case.temp, .press, .humid, .gas].flatMap stateKeys ∧
    some "\x7b\x7b value_json.tvoc \x7d\x7d"
      ∉ (main_setup ble deviceName t []).mqttClient.map valueTemplate := by
  have hmap : (main_setup ble deviceName t []).mqttClient.map valueTemplate
      = [some "\x7b\x7b value_json.temperature \x7d\x7d",
         some "\x7b\x7b value_json.pressure \x7d\x7d",
         some "\x7b\x7b value_json.humidity \x7d\x7d",
         some "\x7b\x7b value_json.eco2 \x7d\x7d",
         some "\x7b\x7b value_json.number \x7d\x7d"] := by
    rcases main_setup_cases ble deviceName t [] with
      ⟨_, _, h, _⟩ | ⟨_, _, _, h, _⟩ | ⟨_, _, _, _, h, _⟩ | ⟨_, _, _, _, _, h, _⟩ |
      ⟨_, _, _, _, h, _, _⟩
    · exact absurd hdone h
    · exact absurd hdone h
    · exact absurd hdone h
    · exact absurd hdone h
    · rw [h]
      simp only [publishDiscovery, List.nil_append, List.cons_append, List.map_cons, List.map_nil,
        valueTemplate, GoValue.lookup]
      rfl
  refine ⟨hmap, ?_, by decide, by decide, ?_⟩
  · intro c s s2 h
    cases c
    · simp only [selectCase, Chan.recv] at h
      cases hi : s.t.TempNotif.items with
      | nil =>
        cases hc : s.t.TempNotif.closed with
        | false => simp [hi, hc] at h
        | true =>
          simp only [hi, hc, if_true, Option.some.injEq] at h
          subst h
          exact ⟨[], by simp, Or.inl rfl⟩
      | cons v rest =>
        simp only [hi, Option.some.injEq] at h
        subst h
        exact ⟨_, rfl, Or.inr rfl⟩
    · simp only [selectCase, Chan.recv] at h
      cases hi : s.t.PressNotif.items with
      | nil =>
        cases hc : s.t.PressNotif.closed with
        | false => simp [hi, hc] at h
        | true =>
          simp only [hi, hc, if_true, Option.some.injEq] at h
          subst h
          exact ⟨[], by simp, Or.inl rfl⟩
      | cons v rest =>
        simp only [hi, Option.some.injEq] at h
        subst h
        exact ⟨_, rfl, Or.inr rfl⟩
    · simp only [selectCase, Chan.recv] at h
      cases hi : s.t.HumidNotif.items with
      | nil =>
        cases hc : s.t.HumidNotif.closed with
        | false => simp [hi, hc] at h
        | true =>
          simp only [hi, hc, if_true, Option.some.injEq] at h
          subst h
          exact ⟨[], by simp, Or.inl rfl⟩
      | cons v rest =>
        simp only [hi, Option.some.injEq] at h
        subst h
        exact ⟨_, rfl, Or.inr rfl⟩
    · simp only [selectCase, Chan.recv] at h
      cases hi : s.t.GasNotif.items with
      | nil =>
        cases hc : s.t.GasNotif.closed with
        | false => simp [hi, hc] at h
        | true =>
          simp only [hi, hc, if_true, Option.some.injEq] at h
          subst h
          exact ⟨[], by simp, Or.inl rfl⟩
      | cons v rest =>
        simp only [hi, Option.some.injEq] at h
        subst h
        refine ⟨[⟨"homeassistant/sensor/" ++ deviceName ++ "/state", 0, false,
            .map [("eco2", .uint16 v.ECO2)]⟩,
          ⟨"homeassistant/sensor/" ++ deviceName ++ "/state", 0, false,
            .map [("tvoc", .uint16 v.TVOC)]⟩], ?_, Or.inr rfl⟩
        simp [publishState]
  · rw [hmap]
    decide

/-- C10, witness: the set-up of `main` on a session whose profile has all four
characteristics completes, and its last discovery message reads the key
number. -/
theorem discovery_keys_differ_from_state_keys_witness :
    (main_setup sampleBle "Office" (New "AA:BB:CC:DD:EE:FF" fullProfile) []).exit = none ∧
    (main_setup sampleBle "Office" (New "AA:BB:CC:DD:EE:FF" fullProfile) []).mqttClient.map
        valueTemplate
      = [some "\x7b\x7b value_json.temperature \x7d\x7d",
         some "\x7b\x7b value_json.pressure \x7d\x7d",
         some "\x7b\x7b value_json.humidity \x7d\x7d",
         some "\x7b\x7b value_json.eco2 \x7d\x7d",
         some "\x7b\x7b value_json.number \x7d\x7d"] :=
  ⟨by decide, (discovery_keys_differ_from_state_keys sampleBle "Office"
    (New "AA:BB:CC:DD:EE:FF" fullProfile) (by decide)).1⟩

/-- C5: for every byte slice of length at least 2, while the temperature queue
is open, `onTempNotif` appends exactly one reading to the queue and changes
nothing else; its value is integerPart + decimalPart/100 computed in float32,
with integerPart byte 0 as a signed 8 bit integer and decimalPart byte 1 as an
unsigned one, which is within 2^-16 of the exact sum; bytes 17 32 (hex) give
23.5 exactly. -/
theorem onTempNotif_decodes (t : Thingy) (data : Slice) (hlen : 2 ≤ data.len)
    (hopen : t.TempNotif.closed = false) :
    ∃ b0 b1 rest, data.elems = b0 :: b1 :: rest ∧
      onTempNotif t data = .ok { t with TempNotif :=
        { items := t.TempNotif.items ++ [readingValue (signed8 b0) b1.val], closed := false } } ∧
      |readingValue (signed8 b0) b1.val - ((signed8 b0 : ℚ) + (b1.val : ℚ) / 100)|
        ≤ 1 / 2 ^ 16 ∧
      (b0 = 0x17 → b1 = 0x32 → readingValue (signed8 b0) b1.val = 47 / 2) := by
  obtain ⟨elems, spare⟩ := data
  match elems, hlen with
  | b0 :: b1 :: rest, _ =>
    refine ⟨b0, b1, rest, rfl, ?_, ?_, ?_⟩
    · simp only [onTempNotif, Slice.index, List.getElem?_cons_zero, List.getElem?_cons_succ, bind,
        Except.bind, Chan.send, hopen, pure, Except.pure, onTempNotif_value]
      rfl
    · have h0 := b0.isLt
      obtain ⟨hy, hyb⟩ := f32Div_hundred_bounds b1.val b1.isLt
      have hsb : |(signed8 b0 : ℚ)| ≤ 128 := by
        have : |signed8 b0| ≤ 128 := by
          unfold signed8
          rw [abs_le]
          split_ifs <;> constructor <;> omega
        exact_mod_cast this
      have hv := f32Round_error_mixed ((signed8 b0 : ℚ) + f32Div (b1.val : ℚ) 100)
      have hsum : |(signed8 b0 : ℚ) + f32Div (b1.val : ℚ) 100| ≤ 131 :=
        (abs_add _ _).trans (by linarith)
      have hv2 : |readingValue (signed8 b0) b1.val
          - ((signed8 b0 : ℚ) + f32Div (b1.val : ℚ) 100)| ≤ 131 / 2 ^ 24 + 1 / 2 ^ 150 := by
        unfold readingValue f32Add
        refine hv.trans ?_
        have : |(signed8 b0 : ℚ) + f32Div (b1.val : ℚ) 100| / 2 ^ 24 ≤ 131 / 2 ^ 24 :=
          div_le_div_of_nonneg_right hsum (by positivity)
        linarith
      have hnum : (131 : ℚ) / 2 ^ 24 + 1 / 2 ^ 150 + 3 / 2 ^ 24 ≤ 1 / 2 ^ 16 := by norm_num
      rw [abs_le] at hv2 hy ⊢
      constructor <;> linarith [hv2.1, hv2.2, hy.1, hy.2]
    · rintro rfl rfl
      have e1 : f32Div (((0x32 : Byte).val : ℕ) : ℚ) 100 = 1 / 2 := by
        have h50 : ((0x32 : Byte).val : ℕ) = 50 := rfl
        have := f32Round_half 1 (by norm_num)
        unfold f32Div
        rw [h50]
        norm_num at this ⊢
        exact this
      have e2 : ((signed8 0x17 : ℤ) : ℚ) = 23 := by
        have h23 : signed8 0x17 = 23 := by decide
        rw [h23]
        norm_num
      unfold readingValue
      rw [e1, e2]
      have := f32Round_half 47 (by norm_num)
      unfold f32Add
      norm_num at this ⊢
      exact this

/-- C5, witness: the temperature callback on the bytes 17 32 (hex). -/
theorem onTempNotif_decodes_witness :
    2 ≤ (Slice.mk [0x17, 0x32] []).len ∧ sampleThingy.TempNotif.closed = false ∧
    onTempNotif sampleThingy ⟨[0x17, 0x32], []⟩ = .ok { sampleThingy with TempNotif :=
      { items := [47 / 2], closed := false } } := by
  obtain ⟨b0, b1, rest, he, hrun, _, hex⟩ :=
    onTempNotif_decodes sampleThingy ⟨[0x17, 0x32], []⟩ (by decide) rfl
  simp only [List.cons.injEq] at he
  obtain ⟨rfl, rfl, _⟩ := he
  refine ⟨by decide, rfl, ?_⟩
  rw [hrun, hex rfl rfl]
  rfl

/-- C6: for every byte slice of length at least 5, while the pressure queue is
open, `onPressNotif` appends exactly one reading to the queue and changes
nothing else; its value is integerPart + decimalPart/100 computed in float32,
with integerPart the unsigned 32 bit little-endian value of bytes 0 to 3
(whose float32 conversion is exact below 2^24) and decimalPart byte 4; the
value is within (integerPart + 3) / 2^22 of the exact sum, and bytes
64 00 00 00 32 (hex) give 100.5 exactly. -/
theorem onPressNotif_decodes (t : Thingy) (data : Slice) (hlen : 5 ≤ data.len)
    (hopen : t.PressNotif.closed = false) :
    ∃ b0 b1 b2 b3 b4 rest, data.elems = b0 :: b1 :: b2 :: b3 :: b4 :: rest ∧
      onPressNotif t data = .ok { t with PressNotif :=
        { items := t.PressNotif.items
            ++ [readingValue (f32OfNat (uint32LE b0 b1 b2 b3)) b4.val]
          closed := false } } ∧
      (uint32LE b0 b1 b2 b3 < 2 ^ 24 →
        f32OfNat (uint32LE b0 b1 b2 b3) = (uint32LE b0 b1 b2 b3 : ℚ)) ∧
      |readingValue (f32OfNat (uint32LE b0 b1 b2 b3)) b4.val
          - ((uint32LE b0 b1 b2 b3 : ℚ) + (b4.val : ℚ) / 100)|
        ≤ ((uint32LE b0 b1 b2 b3 : ℚ) + 3) / 2 ^ 22 ∧
      (b0 = 0x64 → b1 = 0 → b2 = 0 → b3 = 0 → b4 = 0x32 →
        readingValue (f32OfNat (uint32LE b0 b1 b2 b3)) b4.val = 201 / 2) := by
  obtain ⟨elems, spare⟩ := data
  match elems, hlen with
  | b0 :: b1 :: b2 :: b3 :: b4 :: rest, _ =>
    refine ⟨b0, b1, b2, b3, b4, rest, rfl, ?_, ?_, ?_, ?_⟩
    · have hre : Slice.reslice ⟨b0 :: b1 :: b2 :: b3 :: b4 :: rest, spare⟩ 0 4
          = .ok ⟨[b0, b1, b2, b3], b4 :: (rest ++ spare)⟩ := by
        simp [Slice.reslice, Slice.cap]
        omega
      simp only [onPressNotif, hre, leUint32_quad, Slice.index, List.getElem?_cons_zero,
        List.getElem?_cons_succ, bind, Except.bind, Chan.send, hopen, pure, Except.pure,
        onPressNotif_value]
      rfl
    · intro hsmall
      exact f32Round_natCast _ hsmall
    · generalize uint32LE b0 b1 b2 b3 = n
      obtain ⟨hy, hyb⟩ := f32Div_hundred_bounds b4.val b4.isLt
      have hn0 : (0 : ℚ) ≤ n := by positivity
      have ha := f32Round_error_mixed (n : ℚ)
      rw [abs_of_nonneg hn0] at ha
      have htiny : (1 : ℚ) / 2 ^ 150 ≤ 1 / 2 ^ 24 := by norm_num
      have hab : |f32OfNat n| ≤ (n : ℚ) + (n : ℚ) / 2 ^ 24 + 1 / 2 ^ 150 := by
        unfold f32OfNat
        rw [abs_le] at ha ⊢
        constructor <;> linarith [ha.1, ha.2]
      have hsum : |f32OfNat n + f32Div (b4.val : ℚ) 100|
          ≤ (n : ℚ) + (n : ℚ) / 2 ^ 24 + 1 / 2 ^ 150 + 3 :=
        (abs_add _ _).trans (by linarith)
      have hv := f32Round_error_mixed (f32OfNat n + f32Div (b4.val : ℚ) 100)
      have hv2 : |readingValue (f32OfNat n) b4.val - (f32OfNat n + f32Div (b4.val : ℚ) 100)|
          ≤ ((n : ℚ) + (n : ℚ) / 2 ^ 24 + 1 / 2 ^ 150 + 3) / 2 ^ 24 + 1 / 2 ^ 150 := by
        unfold readingValue f32Add
        refine hv.trans ?_
        have := div_le_div_of_nonneg_right hsum (by positivity : (0 : ℚ) ≤ 2 ^ 24)
        linarith
      have hn48 : (n : ℚ) / 2 ^ 24 / 2 ^ 24 ≤ (n : ℚ) / 2 ^ 24 :=
        div_le_self (by positivity) (by norm_num)
      have hexp : ((n : ℚ) + (n : ℚ) / 2 ^ 24 + 1 / 2 ^ 150 + 3) / 2 ^ 24
          = (n : ℚ) / 2 ^ 24 + (n : ℚ) / 2 ^ 24 / 2 ^ 24 + 1 / 2 ^ 150 / 2 ^ 24 + 3 / 2 ^ 24 := by
        ring
      have htiny2 : (1 : ℚ) / 2 ^ 150 / 2 ^ 24 ≤ 1 / 2 ^ 24 := by norm_num
      have hgoal : ((n : ℚ) + 3) / 2 ^ 22 = 4 * ((n : ℚ) / 2 ^ 24) + 12 / 2 ^ 24 := by ring
      have hpos : (0 : ℚ) ≤ (n : ℚ) / 2 ^ 24 := by positivity
      have hc : (0 : ℚ) < 1 / 2 ^ 24 := by positivity
      rw [hexp] at hv2
      rw [hgoal]
      unfold f32OfNat at hv2
      rw [abs_le] at hv2 hy ha ⊢
      have e3 : (3 : ℚ) / 2 ^ 24 = 3 * (1 / 2 ^ 24) := by ring
      have e12 : (12 : ℚ) / 2 ^ 24 = 12 * (1 / 2 ^ 24) := by ring
      rw [e3] at hv2 hy
      rw [e12]
      unfold f32OfNat
      constructor <;> linarith [hv2.1, hv2.2, hy.1, hy.2, ha.1, ha.2]
    · rintro rfl rfl rfl rfl rfl
      have hn : uint32LE 0x64 0 0 0 = 100 := by decide
      have h50 : ((0x32 : Byte).val : ℕ) = 50 := rfl
      have e0 : f32OfNat 100 = 100 := by
        have := f32Round_natCast 100 (by norm_num)
        simpa [f32OfNat] using this
      have e1 : f32Div ((50 : ℕ) : ℚ) 100 = 1 / 2 := by
        have := f32Round_half 1 (by norm_num)
        unfold f32Div
        norm_num at this ⊢
        exact this
      rw [hn, h50]
      unfold readingValue
      rw [e0, e1]
      have := f32Round_half 201 (by norm_num)
      unfold f32Add
      norm_num at this ⊢
      exact this

/-- C6, witness: the pressure callback on the bytes 64 00 00 00 32 (hex). -/
theorem onPressNotif_decodes_witness :
    5 ≤ (Slice.mk [0x64, 0x00, 0x00, 0x00, 0x32] []).len ∧
    sampleThingy.PressNotif.closed = false ∧
    onPressNotif sampleThingy ⟨[0x64, 0x00, 0x00, 0x00, 0x32], []⟩
      = .ok { sampleThingy with PressNotif := { items := [201 / 2], closed := false } } := by
  obtain ⟨b0, b1, b2, b3, b4, rest, he, hrun, _, _, hex⟩ :=
    onPressNotif_decodes sampleThingy ⟨[0x64, 0x00, 0x00, 0x00, 0x32], []⟩ (by decide) rfl
  simp only [List.cons.injEq] at he
  obtain ⟨rfl, rfl, rfl, rfl, rfl, _⟩ := he
  refine ⟨by decide, rfl, ?_⟩
  rw [hrun, hex rfl rfl rfl rfl rfl]
  rfl

end GoThingy
